import Mathlib

/-!
Verification development for the gdl90 repository (GDL-90 data-link codec).

The Python sources are shallowly embedded as Lean definitions:
* byte strings / bytearrays become `List Nat` (each element a byte value);
* Python floats become `ℚ` (the float expressions used by the codec are
  divisions and multiplications of small decimals, modelled exactly);
* functions that can raise become `Except PyErr _`;
* `int(x)` (truncation toward zero) becomes `pyInt`.

File map: `fcs.py` (absent from the source tree, modelled from the spec),
`encoder.py` (`Encoder`), `messages.py`, `decoder.py` (`Decoder`),
`messagesuat.py`.
-/

set_option maxRecDepth 100000

namespace GDL90

/-- Python exception kinds observable in the embedded code. -/
inductive PyErr where
  | assertionError
  | valueError
  | typeError
  deriving DecidableEq

/-- Python `int(x)` on a float/rational value: truncation toward zero. -/
def pyInt (q : ℚ) : ℤ := if 0 ≤ q then q.floor else -((-q).floor)

theorem rat_floor_eq (q : ℚ) : q.floor = ⌊q⌋ := by
  rw [Rat.floor_def', Rat.floor_def]

theorem pyInt_eq_floor {q : ℚ} (h : 0 ≤ q) : pyInt q = ⌊q⌋ := by
  simp [pyInt, h, rat_floor_eq]

theorem pyInt_eq_neg_floor_neg {q : ℚ} (h : ¬ 0 ≤ q) : pyInt q = -⌊-q⌋ := by
  simp [pyInt, h, rat_floor_eq]

/-- The truncation error of `pyInt` is strictly less than 1 in absolute value. -/
theorem abs_pyInt_sub_lt_one (q : ℚ) : |(pyInt q : ℚ) - q| < 1 := by
  by_cases h : 0 ≤ q
  · rw [pyInt_eq_floor h, abs_sub_lt_iff]
    constructor
    · linarith [Int.sub_one_lt_floor q, Int.floor_le q]
    · linarith [Int.sub_one_lt_floor q, Int.floor_le q]
  · have h1 : ((⌊-q⌋ : ℤ) : ℚ) ≤ -q := Int.floor_le (-q)
    have h2 : -q - 1 < ((⌊-q⌋ : ℤ) : ℚ) := Int.sub_one_lt_floor (-q)
    rw [pyInt_eq_neg_floor_neg h, abs_sub_lt_iff]
    push_cast
    constructor <;> linarith

theorem pyInt_nonneg {q : ℚ} (h : 0 ≤ q) : 0 ≤ pyInt q := by
  rw [pyInt_eq_floor h]
  exact Int.floor_nonneg.mpr h

theorem pyInt_le_of_nonneg {q : ℚ} (c : ℤ) (h : 0 ≤ q) (hc : q ≤ (c : ℚ)) :
    pyInt q ≤ c := by
  rw [pyInt_eq_floor h]
  have := Int.floor_le_floor hc
  simpa using this

theorem le_pyInt_of_nonpos {q : ℚ} (c : ℤ) (h : ¬ 0 ≤ q) (hc : (c : ℚ) ≤ q) :
    c ≤ pyInt q := by
  rw [pyInt_eq_neg_floor_neg h]
  have h1 : (-q) ≤ ((-c : ℤ) : ℚ) := by push_cast; linarith
  have := Int.floor_le_floor h1
  simp only [Int.floor_intCast] at this
  omega

/-! ## CRC engine (`gdl90/fcs.py`)

The file `fcs.py` is not present in the source tree; only its tests and
callers are.  The definitions below are modelled from the spec: a classic
table-driven CRC-16 with a precomputed 256-entry table reproducing the
canonical GDL-90 table, calibrated against the literal test vectors of the
spec (checked in the C4 theorem below). -/

/-- Modelled from the spec: one shift-and-reduce step of the canonical
CRC-16-CCITT table construction (polynomial 0x1021), truncated to 16 bits. -/
def crcStep (crc : Nat) : Nat :=
  if crc &&& 0x8000 ≠ 0 then ((crc <<< 1) ^^^ 0x1021) &&& 0xffff
  else (crc <<< 1) &&& 0xffff

/-- Modelled from the spec: the 256-entry CRC-16 table of `fcs.createCRC16Table`
(absent `fcs.py`); entry `i` applies eight reduction steps to `i <<< 8`. -/
def CRC16Table : List Nat := (List.range 256).map fun i => crcStep^[8] (i <<< 8)

/-- Modelled from the spec: `fcs.crcCompute` (absent `fcs.py`) — table-driven
CRC over the message bytes, returning the two check bytes LSB first. -/
def crcCompute (m : List Nat) : List Nat :=
  let crc := m.foldl
    (fun crc b => (CRC16Table.getD (crc >>> 8) 0) ^^^ ((crc <<< 8) &&& 0xffff) ^^^ b) 0
  [crc &&& 0xff, (crc >>> 8) &&& 0xff]

/-- Modelled from the spec: `fcs.crcCheck` (absent `fcs.py`) — recomputes the
CRC and compares; raises a length error when the CRC argument is not exactly
2 bytes. -/
def crcCheck (m crc : List Nat) : Except PyErr Bool :=
  if crc.length ≠ 2 then .error .valueError
  else .ok (decide (crcCompute m = crc))

theorem crcCompute_length (m : List Nat) : (crcCompute m).length = 2 := by
  simp [crcCompute]

theorem crcCheck_crcCompute (m : List Nat) : crcCheck m (crcCompute m) = .ok true := by
  simp [crcCheck, crcCompute_length]

theorem crcCompute_all_lt_256 (m : List Nat) : ∀ b ∈ crcCompute m, b < 256 := by
  intro b hb
  simp only [crcCompute, List.mem_cons, List.not_mem_nil, or_false] at hb
  rcases hb with h | h
  · subst h
    have : ∀ x : Nat, x &&& 0xff < 256 := fun x => by
      have := Nat.and_le_right (n := x) (m := 0xff); omega
    exact this _
  · subst h
    have : ∀ x : Nat, (x >>> 8) &&& 0xff < 256 := fun x => by
      have := Nat.and_le_right (n := x >>> 8) (m := 0xff); omega
    exact this _

/-! ## Frame codec: escaping (`Encoder._escape`) and unescaping
(`Decoder._unescape`) -/

/-- `Encoder._escape`: each 0x7d/0x7e byte is replaced by 0x7d followed by the
byte XOR 0x20; all other bytes pass through. -/
def escape : List Nat → List Nat
  | [] => []
  | c :: rest =>
    if c = 0x7d ∨ c = 0x7e then 0x7d :: (c ^^^ 0x20) :: escape rest
    else c :: escape rest

/-- `Decoder._unescape`, written as a scanner.  The Python loop repeatedly
finds the first 0x7d in the remaining buffer `msg`, flushes the bytes before
it into `msgNew`, appends the following byte XOR 0x20, and deletes the
processed prefix.  Here `acc` is `msgNew`, `seg` is the part of the current
remainder already scanned (no 0x7d in it), and the list argument is the rest.
When 0x7d is the final byte, the Python code has already flushed the prefix
and then the handler appends the whole current remainder again, so the
prefix `seg` is duplicated — reproduced in the middle branch.  When no 0x7d
was ever found, the original buffer (`seg`, since `acc = []`) is returned. -/
def unescapeGo (acc seg : List Nat) (found : Bool) : List Nat → List Nat
  | [] => if found then acc ++ seg else seg
  | c :: rest =>
    if c = 0x7d then
      match rest with
      | [] => acc ++ seg ++ (seg ++ [0x7d])
      | e :: rest2 => unescapeGo (acc ++ seg ++ [e ^^^ 0x20]) [] true rest2
    else unescapeGo acc (seg ++ [c]) found rest

/-- `Decoder._unescape` entry point. -/
def unescape (msg : List Nat) : List Nat := unescapeGo [] [] false msg

theorem unescapeGo_nil (acc seg : List Nat) (found : Bool) :
    unescapeGo acc seg found [] = if found then acc ++ seg else seg := by
  rw [unescapeGo.eq_def]

theorem unescapeGo_esc (acc seg : List Nat) (found : Bool) (e : Nat) (rest2 : List Nat) :
    unescapeGo acc seg found (0x7d :: e :: rest2)
      = unescapeGo (acc ++ seg ++ [e ^^^ 0x20]) [] true rest2 := by
  rw [unescapeGo.eq_def]
  simp

theorem unescapeGo_esc_last (acc seg : List Nat) (found : Bool) :
    unescapeGo acc seg found [0x7d] = acc ++ seg ++ (seg ++ [0x7d]) := by
  rw [unescapeGo.eq_def]
  simp

theorem unescapeGo_cons (acc seg : List Nat) (found : Bool) (c : Nat) (rest : List Nat)
    (hne : c ≠ 0x7d) :
    unescapeGo acc seg found (c :: rest) = unescapeGo acc (seg ++ [c]) found rest := by
  rw [unescapeGo.eq_def]
  dsimp only
  rw [if_neg hne]

theorem escape_not_mem_7e (l : List Nat) : ∀ x ∈ escape l, x ≠ 0x7e := by
  induction l with
  | nil => intro x hx; simp [escape] at hx
  | cons c rest ih =>
    intro x hx
    by_cases hc : c = 0x7d ∨ c = 0x7e
    · simp only [escape, if_pos hc, List.mem_cons] at hx
      rcases hx with h | h | h
      · omega
      · rcases hc with hc | hc <;> subst hc <;> subst h <;> decide
      · exact ih x h
    · simp only [escape, if_neg hc, List.mem_cons] at hx
      rcases hx with h | h
      · subst h; intro he; exact hc (Or.inr he)
      · exact ih x h

theorem unescapeGo_escape_true (l : List Nat) :
    ∀ acc seg, unescapeGo acc seg true (escape l) = acc ++ seg ++ l := by
  induction l with
  | nil => intro acc seg; simp [escape, unescapeGo_nil]
  | cons c rest ih =>
    intro acc seg
    by_cases hc : c = 0x7d ∨ c = 0x7e
    · simp only [escape, if_pos hc]
      have hxor : (c ^^^ 0x20) ^^^ 0x20 = c := by
        rw [Nat.xor_assoc]; simp
      rw [unescapeGo_esc, hxor, ih]
      simp
    · have hne : c ≠ 0x7d := fun h => hc (Or.inl h)
      simp only [escape, if_neg hc]
      rw [unescapeGo_cons _ _ _ _ _ hne, ih]
      simp

theorem unescapeGo_escape_false (l : List Nat) :
    ∀ seg, unescapeGo [] seg false (escape l) = seg ++ l := by
  induction l with
  | nil => intro seg; simp [escape, unescapeGo_nil]
  | cons c rest ih =>
    intro seg
    by_cases hc : c = 0x7d ∨ c = 0x7e
    · simp only [escape, if_pos hc]
      have hxor : (c ^^^ 0x20) ^^^ 0x20 = c := by
        rw [Nat.xor_assoc]; simp
      rw [unescapeGo_esc, hxor, unescapeGo_escape_true]
      simp
    · have hne : c ≠ 0x7d := fun h => hc (Or.inl h)
      simp only [escape, if_neg hc]
      rw [unescapeGo_cons _ _ _ _ _ hne, ih]
      simp

/-- Escaping then unescaping restores any byte sequence (the restriction in
claim C5 is not even needed: `escape` output never ends in a lone 0x7d). -/
theorem unescape_escape (l : List Nat) : unescape (escape l) = l := by
  simpa using unescapeGo_escape_false l []

/-- C5: for every byte sequence `b` that does not end in a lone trailing 0x7d,
unescaping the escaped form of `b` returns `b` exactly. -/
theorem c5_escape_unescape_roundtrip (b : List Nat) (_h : b.getLast? ≠ some 0x7d) :
    unescape (escape b) = b :=
  unescape_escape b

/-- Witness for C5 at `b = [0x7e, 0x7d, 0x41]` (last byte is not 0x7d). -/
theorem c5_escape_unescape_roundtrip_witness :
    unescape (escape [0x7e, 0x7d, 0x41]) = [0x7e, 0x7d, 0x41] :=
  c5_escape_unescape_roundtrip [0x7e, 0x7d, 0x41] (by decide)

/-- C4: `crcCompute` is a pure function (hence deterministic); for every byte
sequence `m`, `crcCheck m (crcCompute m)` succeeds with `true`; and the
concrete heartbeat test vector produces the check bytes `[0xb3, 0x8b]`. -/
theorem c4_crc_determinism_and_check :
    (∀ m : List Nat, crcCheck m (crcCompute m) = .ok true) ∧
      crcCompute [0x00, 0x81, 0x41, 0xDB, 0xD0, 0x08, 0x02] = [0xb3, 0x8b] :=
  ⟨crcCheck_crcCompute, by decide⟩

/-! ## Message codec decode side (`gdl90/messages.py`)

`messages.py` carries Python-3-only type annotations, so it is embedded with
Python-3 dynamic semantics; in particular `str` applied to a `bytearray`
yields the textual representation `bytearray(b'...')`, not the decoded
characters. -/

/-- `messages._unsigned16`.  The length assertion of the source is omitted:
every embedded call site passes a slice of guaranteed length. -/
def unsigned16 (data : List Nat) (littleEndian : Bool) : Nat :=
  let b0 := if littleEndian then data.getD 1 0 else data.getD 0 0
  let b1 := if littleEndian then data.getD 0 0 else data.getD 1 0
  (b0 <<< 8) + b1

/-- `messages._signed16`. -/
def signed16 (data : List Nat) (littleEndian : Bool) : Int :=
  let val := unsigned16 data littleEndian
  if val > 0x7FFF then (val : Int) - 0x10000 else (val : Int)

/-- `messages._unsigned24`. -/
def unsigned24 (data : List Nat) (littleEndian : Bool) : Nat :=
  let b0 := if littleEndian then data.getD 2 0 else data.getD 0 0
  let b1 := data.getD 1 0
  let b2 := if littleEndian then data.getD 0 0 else data.getD 2 0
  (b0 <<< 16) + (b1 <<< 8) + b2

/-- `messages._signed24`. -/
def signed24 (data : List Nat) (littleEndian : Bool) : Int :=
  let val := unsigned24 data littleEndian
  if val > 0x7FFFFF then (val : Int) - 0x1000000 else (val : Int)

/-- `messages._thunkByte`: mask then shift (negative = right, positive =
left).  The `ValueError` guard for inputs above 8 bits is omitted: every
embedded call site passes a `bytearray` element, which is below 256. -/
def thunkByte (byte : Nat) (mask : Nat) (shift : Int) : Nat :=
  let val := byte &&& mask
  if shift < 0 then val >>> shift.natAbs
  else if shift > 0 then val <<< shift.toNat
  else val

/-- Python 3 `str()` applied to a `bytearray`, restricted to printable ASCII
bytes containing no apostrophe and no backslash (the only case the embedded
call sites exercise): the text `bytearray(b'...')` with the bytes rendered as
characters. -/
def pyStrBytearray (bs : List Nat) : String :=
  "bytearray(b" ++ String.mk [Char.ofNat 39]
    ++ String.mk (bs.map Char.ofNat) ++ String.mk [Char.ofNat 39] ++ ")"

/-- Python `str.rstrip()` whitespace test. -/
def isPySpace (c : Char) : Bool :=
  c = Char.ofNat 32 ∨ c = Char.ofNat 9 ∨ c = Char.ofNat 10 ∨ c = Char.ofNat 13 ∨
    c = Char.ofNat 11 ∨ c = Char.ofNat 12

/-- Python `str.rstrip()` with no argument: drop trailing whitespace. -/
def rstrip (s : String) : String :=
  String.mk ((s.data.reverse.dropWhile isPySpace).reverse)

/-- Decoded ownship/traffic report fields
(`messages._parseMessageType10and20` output, minus the MsgType tag). -/
structure Report where
  status : Nat
  rtype : Nat
  address : Nat
  latitude : ℚ
  longitude : ℚ
  altitude : ℤ
  misc : Nat
  navIntegrityCat : Nat
  navAccuracyCat : Nat
  hVelocity : Nat
  vVelocity : ℤ
  trackHeading : ℚ
  emitterCat : Nat
  callSign : String
  code : Nat
  deriving DecidableEq

/-- Decoded GDL-90 messages (the namedtuple variants of `messages.py`). -/
inductive Msg where
  | heartbeat (statusByte1 statusByte2 timeStamp uplinkCount basicLongCount : Nat)
  | uplinkData (timeOfReception : Nat) (header data : List Nat)
  | ownshipReport (r : Report)
  | ownshipGeometricAltitude (altitude : ℤ) (verticalMetrics : Nat)
  | trafficReport (r : Report)
  | gpsTime (hour minute : Nat) (waas : Option Bool)
  deriving DecidableEq

/-- `messages._parseMessageType10and20` (the common ownship/traffic field
decoder).  The mask `0x0b11110000` for the status nibble is the hexadecimal
literal of the source, copied verbatim. -/
def parseMessageType10and20 (msgBytes : List Nat) : Report :=
  let b := fun i => msgBytes.getD i 0
  let latLongIncrement : ℚ := 180 / 2 ^ 23
  let altMetric := thunkByte (b 11) 0xff 4 + thunkByte (b 12) 0xf0 (-4)
  let horzVelo0 := thunkByte (b 14) 0xff 4 + thunkByte (b 15) 0xf0 (-4)
  let horzVelo := if horzVelo0 = 0xfff then 0 else horzVelo0
  let vertVelo0 := thunkByte (b 15) 0x0f 8 + thunkByte (b 16) 0xff 0
  let vertVelo : ℤ :=
    if vertVelo0 = 0x800 then 0
    else if (0x1ff ≤ vertVelo0 ∧ vertVelo0 ≤ 0x7ff) ∨ (0x801 ≤ vertVelo0 ∧ vertVelo0 ≤ 0xe01)
      then 0
    else if vertVelo0 > 2047 then (vertVelo0 : ℤ) - 4096
    else (vertVelo0 : ℤ)
  let trackIncrement : ℚ := 360 / 256
  let callsign0 := rstrip (pyStrBytearray ((msgBytes.drop 19).take 8))
  { status := thunkByte (b 1) 0x0b11110000 (-4)
    rtype := thunkByte (b 1) 0b00001111 0
    address := ((b 2) <<< 16) + ((b 3) <<< 8) + b 4
    latitude := (signed24 (msgBytes.drop 5) false : ℚ) * latLongIncrement
    longitude := (signed24 (msgBytes.drop 8) false : ℚ) * latLongIncrement
    altitude := (altMetric : ℤ) * 25 - 1000
    misc := thunkByte (b 12) 0x0f 0
    navIntegrityCat := thunkByte (b 13) 0xf0 (-4)
    navAccuracyCat := thunkByte (b 13) 0x0f 0
    hVelocity := horzVelo
    vVelocity := vertVelo * 64
    trackHeading := (b 17 : ℚ) * trackIncrement
    emitterCat := b 18
    callSign := if callsign0 = "" then "-" else callsign0
    code := thunkByte (b 27) 0xf0 (-4) }

/-- `messages._parseOwnshipReport` (message type 10); the two `assert`
statements become an `AssertionError`. -/
def parseOwnshipReport (msgBytes : List Nat) : Except PyErr Msg :=
  if msgBytes.length = 28 ∧ msgBytes.getD 0 0 = 10 then
    .ok (.ownshipReport (parseMessageType10and20 msgBytes))
  else .error .assertionError

/-- `messages._parseTrafficReport` (message type 20). -/
def parseTrafficReport (msgBytes : List Nat) : Except PyErr Msg :=
  if msgBytes.length = 28 ∧ msgBytes.getD 0 0 = 20 then
    .ok (.trafficReport (parseMessageType10and20 msgBytes))
  else .error .assertionError

/-- `messages._parseHeartbeat` (message type 0). -/
def parseHeartbeat (msgBytes : List Nat) : Except PyErr Msg :=
  if msgBytes.length = 7 ∧ msgBytes.getD 0 0 = 0 then
    let statusByte2 := msgBytes.getD 2 0
    let ts0 := unsigned16 (msgBytes.drop 3) true
    let timeStamp := if statusByte2 &&& 0b10000000 ≠ 0 then ts0 + (1 <<< 16) else ts0
    let uplinkCount := (msgBytes.getD 5 0 &&& 0b11111000) >>> 3
    let basicLongCount := ((msgBytes.getD 5 0 &&& 0b00000011) <<< 8) + msgBytes.getD 6 0
    .ok (.heartbeat (msgBytes.getD 1 0) statusByte2 timeStamp uplinkCount basicLongCount)
  else .error .assertionError

/-- `messages._parseUplinkData` (message type 7). -/
def parseUplinkData (msgBytes : List Nat) : Except PyErr Msg :=
  if msgBytes.length = 436 ∧ msgBytes.getD 0 0 = 7 then
    .ok (.uplinkData (unsigned24 ((msgBytes.drop 1).take 3) true)
      ((msgBytes.drop 4).take 8) (msgBytes.drop 12))
  else .error .assertionError

/-- `messages._parseOwnshipGeometricAltitude` (message type 11). -/
def parseOwnshipGeometricAltitude (msgBytes : List Nat) : Except PyErr Msg :=
  if msgBytes.length = 5 ∧ msgBytes.getD 0 0 = 11 then
    .ok (.ownshipGeometricAltitude (signed16 (msgBytes.drop 1) false * 5)
      ((msgBytes.getD 3 0 <<< 8) + msgBytes.getD 4 0))
  else .error .assertionError

/-- `messages._parseSkyradarGpsTime` (12- or 21-byte message type 101):
range-validates hour and minute, returns `none` on failure. -/
def parseSkyradarGpsTime (msgBytes : List Nat) : Except PyErr (Option Msg) :=
  if (msgBytes.length = 12 ∨ msgBytes.length = 21) ∧ msgBytes.getD 0 0 = 101 then
    let utcHour := msgBytes.getD 7 0
    let utcMinute := msgBytes.getD 8 0
    if ¬ (utcHour < 24) ∨ ¬ (utcMinute < 60) then .ok none
    else
      let waas : Option Bool :=
        if msgBytes.getD 3 0 = 0x31 then some false
        else if msgBytes.getD 3 0 = 0x32 then some true
        else none
      .ok (some (.gpsTime utcHour utcMinute waas))
  else .error .assertionError

/-- `messages._parseSkyEchoOwnship` — placeholder returning `None`. -/
def parseSkyEchoOwnship (_msgBytes : List Nat) : Except PyErr (Option Msg) :=
  .ok none

/-- `messages._parseCustomMessage101`: dispatch on payload length. -/
def parseCustomMessage101 (msgBytes : List Nat) : Except PyErr (Option Msg) :=
  if msgBytes.getD 0 0 = 101 then
    if msgBytes.length = 12 ∨ msgBytes.length = 21 then parseSkyradarGpsTime msgBytes
    else if msgBytes.length = 29 then parseSkyEchoOwnship msgBytes
    else .ok none
  else .error .assertionError

/-- `messages.messageToObject`: dispatch on the leading message-ID byte via
`MessageIDMapping`; unknown IDs and empty input give `None`. -/
def messageToObject (data : List Nat) : Except PyErr (Option Msg) :=
  if data.length = 0 then .ok none
  else
    match data.getD 0 0 with
    | 0 => (parseHeartbeat data).map some
    | 7 => (parseUplinkData data).map some
    | 10 => (parseOwnshipReport data).map some
    | 11 => (parseOwnshipGeometricAltitude data).map some
    | 20 => (parseTrafficReport data).map some
    | 101 => parseCustomMessage101 data
    | _ => .ok none

/-- The 28-byte message-ID-10 payload of claim C3 (also the decoder test
vector `tests/test_decoder.py:test_ownship`, without its two CRC bytes). -/
def c3Payload : List Nat :=
  [0x0a, 0x01, 0xBE, 0xEF, 0x01, 0x17, 0xBE, 0x76, 0xB5, 0xAA, 0xE5, 0x03, 0x5B, 0x88,
   0x0E, 0x10, 0x00, 0x5B, 0x01, 0x4E, 0x31, 0x32, 0x33, 0x4D, 0x45, 0x20, 0x20, 0x00]

/-- C3 counterexample: the claimed decode of the C3 payload (altitude 348 ft
and call sign the plain text N123ME) does not hold on the code: the altitude
field decodes to 325 ft. -/
theorem c3_counterexample :
    ¬ (∃ r : Report, parseOwnshipReport c3Payload = .ok (.ownshipReport r) ∧
        r.address = 0xBEEF01 ∧
        |r.latitude - 3339 / 100| < 180 / 2 ^ 23 ∧
        |r.longitude + 10453 / 100| < 180 / 2 ^ 23 ∧
        r.altitude = 348 ∧
        r.callSign = "N123ME") := by
  rintro ⟨r, hr, -, -, -, halt, -⟩
  have h1 : (match parseOwnshipReport c3Payload with
      | .ok (.ownshipReport r) => some r.altitude
      | _ => none) = some 325 := by decide
  rw [hr] at h1
  simp only [Option.some.injEq] at h1
  omega

/-- C3 (amended): decoding the C3 payload produces an OwnshipReport with
Address 0xBEEF01, Latitude within one 24-bit LSB of 33.39 degrees, Longitude
within one LSB of -104.53 degrees, Altitude 325 ft (the 25-ft-quantized value
of the 348 ft used to build the vector), and CallSign equal to the Python-3
`str()` rendering of the bytearray slice holding N123ME padded with two
spaces; the payload's CRC bytes 0xB3 0xE0 verify. -/
theorem c3_amended_decode :
    ∃ r : Report, parseOwnshipReport c3Payload = .ok (.ownshipReport r) ∧
      r.address = 0xBEEF01 ∧
      |r.latitude - 3339 / 100| < 180 / 2 ^ 23 ∧
      |r.longitude + 10453 / 100| < 180 / 2 ^ 23 ∧
      r.altitude = 325 ∧
      r.callSign = pyStrBytearray [0x4E, 0x31, 0x32, 0x33, 0x4D, 0x45, 0x20, 0x20] ∧
      crcCheck c3Payload [0xB3, 0xE0] = .ok true := by
  refine ⟨parseMessageType10and20 c3Payload, rfl, by decide, ?_, ?_, by decide,
    by decide, rfl⟩
  · have hl : (parseMessageType10and20 c3Payload).latitude
        = (signed24 (c3Payload.drop 5) false : ℚ) * (180 / 2 ^ 23) := rfl
    rw [hl, (by decide : signed24 (c3Payload.drop 5) false = 1556086)]
    rw [abs_lt]
    constructor <;> norm_num
  · have hl : (parseMessageType10and20 c3Payload).longitude
        = (signed24 (c3Payload.drop 8) false : ℚ) * (180 / 2 ^ 23) := rfl
    rw [hl, (by decide : signed24 (c3Payload.drop 8) false = -4871451)]
    rw [abs_lt]
    constructor <;> norm_num

/-- C9: a payload with leading byte 101 decodes by length dispatch: lengths
12 and 21 give the Skyradar GPS-time variant with Hour from byte 7 and Minute
from byte 8 when both are in range and an absent result otherwise; length 29
(SkyEcho variant, unsupported) and all other lengths give an absent result. -/
theorem c9_custom101_dispatch (b : List Nat) (h0 : b.getD 0 0 = 101) :
    parseCustomMessage101 b =
      if b.length = 12 ∨ b.length = 21 then
        (if b.getD 7 0 < 24 ∧ b.getD 8 0 < 60 then
          .ok (some (.gpsTime (b.getD 7 0) (b.getD 8 0)
            (if b.getD 3 0 = 0x31 then some false
             else if b.getD 3 0 = 0x32 then some true else none)))
         else .ok none)
      else .ok none := by
  simp only [parseCustomMessage101, if_pos h0]
  by_cases hlen : b.length = 12 ∨ b.length = 21
  · rw [if_pos hlen, if_pos hlen]
    simp only [parseSkyradarGpsTime, if_pos (And.intro hlen h0)]
    by_cases h7 : b.getD 7 0 < 24 <;> by_cases h8 : b.getD 8 0 < 60
    · rw [if_neg (by tauto), if_pos (And.intro h7 h8)]
    · rw [if_pos (by tauto), if_neg (by tauto)]
    · rw [if_pos (by tauto), if_neg (by tauto)]
    · rw [if_pos (by tauto), if_neg (by tauto)]
  · rw [if_neg hlen, if_neg hlen]
    by_cases h29 : b.length = 29
    · rw [if_pos h29]
      rfl
    · rw [if_neg h29]

/-- Witness for C9 at a concrete 12-byte payload with hour 10, minute 30. -/
theorem c9_custom101_dispatch_witness :
    parseCustomMessage101 [101, 0x2a, 0, 0x32, 0, 0, 0, 10, 30, 0, 0, 4] =
      .ok (some (.gpsTime 10 30 (some true))) := by
  have h := c9_custom101_dispatch [101, 0x2a, 0, 0x32, 0, 0, 0, 10, 30, 0, 0, 4] (by decide)
  simpa using h

/-- C10: for every 28-byte ownship/traffic payload, the decoder normalizes
each velocity sentinel independently of the other field: a raw 12-bit
horizontal-velocity field equal to the 0xFFF sentinel decodes to HVelocity
0, and a raw 12-bit vertical-velocity field equal to 0x800 or lying in a
reserved range decodes to VVelocity 0, each indistinguishable from a true
zero. -/
theorem c10_velocity_sentinels (b : List Nat) (_hlen : b.length = 28) :
    (thunkByte (b.getD 14 0) 0xff 4 + thunkByte (b.getD 15 0) 0xf0 (-4) = 0xfff →
      (parseMessageType10and20 b).hVelocity = 0) ∧
    (thunkByte (b.getD 15 0) 0x0f 8 + thunkByte (b.getD 16 0) 0xff 0 = 0x800 ∨
      (0x1ff ≤ thunkByte (b.getD 15 0) 0x0f 8 + thunkByte (b.getD 16 0) 0xff 0 ∧
        thunkByte (b.getD 15 0) 0x0f 8 + thunkByte (b.getD 16 0) 0xff 0 ≤ 0x7ff) ∨
      (0x801 ≤ thunkByte (b.getD 15 0) 0x0f 8 + thunkByte (b.getD 16 0) 0xff 0 ∧
        thunkByte (b.getD 15 0) 0x0f 8 + thunkByte (b.getD 16 0) 0xff 0 ≤ 0xe01) →
      (parseMessageType10and20 b).vVelocity = 0) := by
  constructor
  · intro hH
    have e : (parseMessageType10and20 b).hVelocity =
        if thunkByte (b.getD 14 0) 0xff 4 + thunkByte (b.getD 15 0) 0xf0 (-4) = 0xfff then 0
        else thunkByte (b.getD 14 0) 0xff 4 + thunkByte (b.getD 15 0) 0xf0 (-4) := rfl
    rw [e, if_pos hH]
  · intro hV
    have e : (parseMessageType10and20 b).vVelocity =
        (if thunkByte (b.getD 15 0) 0x0f 8 + thunkByte (b.getD 16 0) 0xff 0 = 0x800 then 0
         else if (0x1ff ≤ thunkByte (b.getD 15 0) 0x0f 8 + thunkByte (b.getD 16 0) 0xff 0 ∧
              thunkByte (b.getD 15 0) 0x0f 8 + thunkByte (b.getD 16 0) 0xff 0 ≤ 0x7ff) ∨
            (0x801 ≤ thunkByte (b.getD 15 0) 0x0f 8 + thunkByte (b.getD 16 0) 0xff 0 ∧
              thunkByte (b.getD 15 0) 0x0f 8 + thunkByte (b.getD 16 0) 0xff 0 ≤ 0xe01) then 0
         else if thunkByte (b.getD 15 0) 0x0f 8 + thunkByte (b.getD 16 0) 0xff 0 > 2047 then
           ((thunkByte (b.getD 15 0) 0x0f 8 + thunkByte (b.getD 16 0) 0xff 0 : Nat) : ℤ) - 4096
         else ((thunkByte (b.getD 15 0) 0x0f 8 + thunkByte (b.getD 16 0) 0xff 0 : Nat) : ℤ))
          * 64 := rfl
    rw [e]
    rcases hV with h | h | h
    · rw [if_pos h]
      rfl
    · rw [if_neg (by omega), if_pos (Or.inl h)]
      rfl
    · rw [if_neg (by omega), if_pos (Or.inr h)]
      rfl

/-- Witness for C10, exercising the two implications independently: a
payload with raw horizontal velocity 0xFFF and an ordinary (zero) vertical
field decodes HVelocity to 0, and a payload with raw vertical velocity
0x800 and an ordinary (zero) horizontal field decodes VVelocity to 0. -/
theorem c10_velocity_sentinels_witness :
    (parseMessageType10and20
      [10, 0, 0, 0, 0, 0, 0, 0, 0, 0, 0, 0, 0, 0, 0xff, 0xf0, 0, 0, 0, 0x20, 0x20, 0x20,
       0x20, 0x20, 0x20, 0x20, 0x20, 0]).hVelocity = 0 ∧
    (parseMessageType10and20
      [10, 0, 0, 0, 0, 0, 0, 0, 0, 0, 0, 0, 0, 0, 0, 0x08, 0, 0, 0, 0x20, 0x20, 0x20,
       0x20, 0x20, 0x20, 0x20, 0x20, 0]).vVelocity = 0 :=
  ⟨(c10_velocity_sentinels _ (by decide)).1 (by decide),
   (c10_velocity_sentinels _ (by decide)).2 (Or.inl (by decide))⟩

/-! ## Stream decoder (`gdl90/decoder.py`, class `Decoder`) -/

/-- Decoder instance state.  The statistics dictionary `stats['msgs']`
becomes an association list (message ID, good count, bad count) with lazily
created entries, seeded with the entry for ID 0 as in `Decoder.__init__`.
The wall-clock fields of the Python class are abstracted: `currtime` is a
counter advanced by heartbeats, `dayStart` keeps only whether the field was
ever assigned (it is `None` after `__init__`, and `datetime.combine` raises
`TypeError` when it is still `None`). -/
structure DecoderState where
  inputBuffer : List Nat
  parserSynchronized : Bool
  resyncCount : Nat
  statsMsgs : List (Nat × Nat × Nat)
  currtime : Nat
  gpsTimeReceived : Bool
  dayStart : Option Nat
  deriving DecidableEq

/-- `Decoder.__init__`. -/
def initialState : DecoderState :=
  { inputBuffer := []
    parserSynchronized := false
    resyncCount := 0
    statsMsgs := [(0, 0, 0)]
    currtime := 0
    gpsTimeReceived := false
    dayStart := none }

/-- Python `list.index(value)` restricted to searching 0x7e, returning the
index of the first occurrence (`none` models the `ValueError`). -/
def index7e : List Nat → Option Nat
  | [] => none
  | c :: rest => if c = 0x7e then some 0 else (index7e rest).map (· + 1)

theorem index7e_cons (c : Nat) (rest : List Nat) :
    index7e (c :: rest) = if c = 0x7e then some 0 else (index7e rest).map (· + 1) := rfl

theorem index7e_some {buf : List Nat} {i : Nat} (h : index7e buf = some i) :
    i < buf.length ∧ buf.getD i 0 = 0x7e := by
  induction buf generalizing i with
  | nil => simp [index7e] at h
  | cons c rest ih =>
    rw [index7e_cons] at h
    by_cases hc : c = 0x7e
    · rw [if_pos hc] at h
      cases h
      exact ⟨by simp, by simpa using hc⟩
    · rw [if_neg hc, Option.map_eq_some'] at h
      obtain ⟨j, hj, hji⟩ := h
      obtain ⟨h1, h2⟩ := ih hj
      subst hji
      exact ⟨by simpa using h1, by simpa using h2⟩

theorem index7e_none {buf : List Nat} (h : index7e buf = none) : ∀ x ∈ buf, x ≠ 0x7e := by
  induction buf with
  | nil => simp
  | cons c rest ih =>
    rw [index7e_cons] at h
    by_cases hc : c = 0x7e
    · rw [if_pos hc] at h
      cases h
    · rw [if_neg hc, Option.map_eq_none'] at h
      intro x hx
      rw [List.mem_cons] at hx
      rcases hx with rfl | hx
      · exact hc
      · exact ih h x hx

theorem index7e_append_no7e {E : List Nat} (hE : ∀ x ∈ E, x ≠ 0x7e) (rest : List Nat) :
    index7e (E ++ 0x7e :: rest) = some E.length := by
  induction E with
  | nil => simp [index7e]
  | cons c cs ih =>
    have hc : c ≠ 0x7e := hE c (by simp)
    have hcs : ∀ x ∈ cs, x ≠ 0x7e := fun x hx => hE x (by simp [hx])
    simp [index7e, hc, ih hcs]

theorem index7e_getD_pos {buf : List Nat} (hne : buf.getD 0 0 ≠ 0x7e)
    (hlen : 2 ≤ buf.length) : 1 ≤ (index7e buf).getD buf.length := by
  match hidx : index7e buf with
  | none => simp; omega
  | some i =>
    obtain ⟨-, h2⟩ := index7e_some hidx
    simp only [Option.getD_some]
    rcases Nat.eq_zero_or_pos i with h | h
    · subst h; exact absurd h2 hne
    · exact h

/-- The scanning loop of `Decoder._resynchronizeParser`: discard bytes until
the buffer is shorter than 2 bytes (not synchronized), or starts with
0x7e 0x7e (drop the first marker, synchronized), or starts with a lone 0x7e
(synchronized); otherwise delete everything before the first 0x7e (or the
whole buffer when there is none) and continue.  The loop is fuelled for
structural recursion; every pass through the final branch removes at least
one byte, so fuel equal to the buffer length (as the wrapper `resyncLoop`
passes) never runs out — the fuel-0 branch coincides with the empty-buffer
outcome. -/
def resyncLoopF : Nat → List Nat → Bool × List Nat
  | 0, buf => (false, buf)
  | fuel + 1, buf =>
    if buf.length < 2 then (false, buf)
    else if buf.getD 0 0 = 0x7e ∧ buf.getD 1 0 = 0x7e then (true, buf.drop 1)
    else if buf.getD 0 0 = 0x7e then (true, buf)
    else resyncLoopF fuel (buf.drop ((index7e buf).getD buf.length))

/-- The scanning loop of `Decoder._resynchronizeParser` (fuelled wrapper). -/
def resyncLoop (buf : List Nat) : Bool × List Nat := resyncLoopF buf.length buf

/-- `Decoder._resynchronizeParser`: clears the synchronized flag, increments
the resync counter, then runs the scanning loop; returns the loop's verdict
together with the updated state. -/
def resynchronizeParser (st : DecoderState) : Bool × DecoderState :=
  let r := resyncLoop st.inputBuffer
  (r.1, { st with parserSynchronized := r.1, inputBuffer := r.2,
                  resyncCount := st.resyncCount + 1 })

/-- Lazy creation of a statistics entry (`if not msg[0] in ... : ... = [0,0]`). -/
def statsEnsure (l : List (Nat × Nat × Nat)) (msgId : Nat) : List (Nat × Nat × Nat) :=
  if l.any (fun e => e.1 = msgId) then l else l ++ [(msgId, 0, 0)]

/-- Increment the good counter of a statistics entry. -/
def statsIncGood (l : List (Nat × Nat × Nat)) (msgId : Nat) : List (Nat × Nat × Nat) :=
  l.map (fun e => if e.1 = msgId then (e.1, e.2.1 + 1, e.2.2) else e)

/-- Increment the bad counter of a statistics entry. -/
def statsIncBad (l : List (Nat × Nat × Nat)) (msgId : Nat) : List (Nat × Nat × Nat) :=
  l.map (fun e => if e.1 = msgId then (e.1, e.2.1, e.2.2 + 1) else e)

/-- The per-message-type dispatch at the end of `Decoder._decodeMessage`.
The printing of the Python code is dropped (the decoded message is instead
returned as the observable output); the clock bookkeeping is abstracted:
heartbeats advance `currtime`, and a `GpsTime` message arriving before any
other with `dayStart` still `None` raises `TypeError`
(`datetime.combine(None, ...)`). -/
def dispatchMessage (st : DecoderState) (m : Msg) : Except PyErr (DecoderState × Option Msg) :=
  match m with
  | .heartbeat _ _ _ _ _ => .ok ({ st with currtime := st.currtime + 1 }, some m)
  | .gpsTime _ _ _ =>
    if st.gpsTimeReceived = false then
      match st.dayStart with
      | none => .error .typeError
      | some _ => .ok ({ st with gpsTimeReceived := true }, some m)
    else .ok (st, some m)
  | _ => .ok (st, some m)

/-- `Decoder._decodeMessage`: unescape, drop frames shorter than 5 bytes,
split payload and CRC, verify, update statistics, parse, dispatch. -/
def decodeMessage (st : DecoderState) (escapedMessage : List Nat) :
    Except PyErr (DecoderState × Option Msg) :=
  let rawMsg := unescape escapedMessage
  if rawMsg.length < 5 then .ok (st, none)
  else
    let msg := rawMsg.take (rawMsg.length - 2)
    let crc := rawMsg.drop (rawMsg.length - 2)
    match crcCheck msg crc with
    | .error e => .error e
    | .ok crcValid =>
      let st1 := { st with statsMsgs := statsEnsure st.statsMsgs (msg.getD 0 0) }
      if crcValid = false then
        .ok ({ st1 with statsMsgs := statsIncBad st1.statsMsgs (msg.getD 0 0) }, none)
      else
        let st2 := { st1 with statsMsgs := statsIncGood st1.statsMsgs (msg.getD 0 0) }
        match messageToObject msg with
        | .error e => .error e
        | .ok none => .ok (st2, none)
        | .ok (some m) => dispatchMessage st2 m

/-- One pass of the frame-extraction part of the `Decoder._parseMessages`
loop body: search for the closing 0x7e at offset ≥ 1; when absent, stop and
wait for more bytes; when present at absolute index `j + 1`, cut out the
body, delete it with both markers from the buffer, and decode.  The boolean
of the result tells whether the loop continues. -/
def extractFrameStep (st : DecoderState) : Except PyErr (Bool × DecoderState × Option Msg) :=
  match index7e (st.inputBuffer.drop 1) with
  | none => .ok (false, st, none)
  | some j =>
    let msg := (st.inputBuffer.drop 1).take j
    let st1 := { st with inputBuffer := st.inputBuffer.drop (j + 2) }
    match decodeMessage st1 msg with
    | .error e => .error e
    | .ok (st2, m?) => .ok (true, st2, m?)

/-- The `while True` loop of `Decoder._parseMessages`, fuelled.  Each
continuing iteration removes at least two bytes from the buffer, so fuel
`length + 1` (as passed by `parseMessages`) can never run out; returning the
current state on exhausted fuel is an unreachable artifact of the fuel
encoding. -/
def parseLoop : Nat → DecoderState → List Msg → Except PyErr (DecoderState × List Msg)
  | 0, st, acc => .ok (st, acc)
  | fuel + 1, st, acc =>
    if st.inputBuffer.length < 2 then .ok (st, acc)
    else if st.inputBuffer.getD 0 0 ≠ 0x7e then
      let r := resynchronizeParser st
      if r.1 = false then .ok (r.2, acc)
      else
        match extractFrameStep r.2 with
        | .error e => .error e
        | .ok (false, st', _) => .ok (st', acc)
        | .ok (true, st', m?) => parseLoop fuel st' (acc ++ m?.toList)
    else
      match extractFrameStep st with
      | .error e => .error e
      | .ok (false, st', _) => .ok (st', acc)
      | .ok (true, st', m?) => parseLoop fuel st' (acc ++ m?.toList)

/-- `Decoder._parseMessages`: resynchronize first when not synchronized
(returning when the buffer was drained), then drain complete frames. -/
def parseMessages (st : DecoderState) : Except PyErr (DecoderState × List Msg) :=
  if st.parserSynchronized = false then
    let r := resynchronizeParser st
    if r.1 = false then .ok (r.2, [])
    else parseLoop (r.2.inputBuffer.length + 1) r.2 []
  else parseLoop (st.inputBuffer.length + 1) st []

/-- `Decoder.addBytes`: append the data to the input buffer and parse.  The
Python method prints decoded messages; the model returns them as the list of
observable decode results of the call. -/
def addBytes (st : DecoderState) (data : List Nat) : Except PyErr (DecoderState × List Msg) :=
  parseMessages { st with inputBuffer := st.inputBuffer ++ data }

theorem resyncLoopF_succ (fuel : Nat) (buf : List Nat) :
    resyncLoopF (fuel + 1) buf =
      if buf.length < 2 then (false, buf)
      else if buf.getD 0 0 = 0x7e ∧ buf.getD 1 0 = 0x7e then (true, buf.drop 1)
      else if buf.getD 0 0 = 0x7e then (true, buf)
      else resyncLoopF fuel (buf.drop ((index7e buf).getD buf.length)) := rfl

/-- Behavior of the fuelled resynchronization scan, for sufficient fuel: the
final buffer is always a suffix of the input; on success it is nonempty and
starts with 0x7e; on failure it holds fewer than 2 bytes and is empty, or a
lone 0x7e, or the untouched input. -/
theorem resyncLoopF_spec (fuel : Nat) :
    ∀ buf : List Nat, buf.length ≤ fuel →
    (∃ k, (resyncLoopF fuel buf).2 = buf.drop k) ∧
    ((resyncLoopF fuel buf).1 = true →
      (resyncLoopF fuel buf).2 ≠ [] ∧ (resyncLoopF fuel buf).2.getD 0 0 = 0x7e) ∧
    ((resyncLoopF fuel buf).1 = false →
      (resyncLoopF fuel buf).2.length < 2 ∧
      ((resyncLoopF fuel buf).2 = [] ∨ (resyncLoopF fuel buf).2 = [0x7e] ∨
        (resyncLoopF fuel buf).2 = buf)) := by
  induction fuel with
  | zero =>
    intro buf hlen
    have hnil : buf = [] := by
      cases buf with
      | nil => rfl
      | cons a rest => simp at hlen
    subst hnil
    exact ⟨⟨0, rfl⟩, by simp [resyncLoopF], fun _ => ⟨by simp [resyncLoopF], Or.inl rfl⟩⟩
  | succ n ih =>
    intro buf hlen
    rw [resyncLoopF_succ]
    by_cases h2 : buf.length < 2
    · rw [if_pos h2]
      exact ⟨⟨0, by simp⟩, by simp, fun _ => ⟨h2, Or.inr (Or.inr rfl)⟩⟩
    · rw [if_neg h2]
      by_cases hdd : buf.getD 0 0 = 0x7e ∧ buf.getD 1 0 = 0x7e
      · rw [if_pos hdd]
        refine ⟨⟨1, rfl⟩, fun _ => ⟨?_, ?_⟩, by simp⟩
        · show buf.drop 1 ≠ []
          intro hc
          have hl : (buf.drop 1).length = buf.length - 1 := by simp
          rw [hc] at hl
          simp at hl
          omega
        · show (buf.drop 1).getD 0 0 = 0x7e
          have hget : (buf.drop 1).getD 0 0 = buf.getD 1 0 := by
            cases buf with
            | nil => simp at h2
            | cons a rest => simp
          rw [hget]
          exact hdd.2
      · rw [if_neg hdd]
        by_cases hd : buf.getD 0 0 = 0x7e
        · rw [if_pos hd]
          refine ⟨⟨0, by simp⟩, fun _ => ⟨?_, hd⟩, by simp⟩
          show buf ≠ []
          intro hc
          subst hc
          simp at h2
        · rw [if_neg hd]
          have h1 : 1 ≤ (index7e buf).getD buf.length := index7e_getD_pos hd (by omega)
          have hfit : (buf.drop ((index7e buf).getD buf.length)).length ≤ n := by
            simp only [List.length_drop]
            omega
          obtain ⟨ha, hb, hc⟩ := ih _ hfit
          refine ⟨?_, hb, ?_⟩
          · obtain ⟨k, hk⟩ := ha
            refine ⟨(index7e buf).getD buf.length + k, ?_⟩
            rw [hk, List.drop_drop, Nat.add_comm]
          · intro hfalse
            obtain ⟨hlen2, hrest⟩ := hc hfalse
            refine ⟨hlen2, ?_⟩
            rcases hrest with h | h | h
            · exact Or.inl h
            · exact Or.inr (Or.inl h)
            · -- the recursive call returned its input unchanged; that input
              -- is either the empty suffix (no 0x7e anywhere) or starts at
              -- the first 0x7e, hence with fewer than 2 bytes it is [] or
              -- [0x7e]
              rw [h] at hlen2 ⊢
              cases hidx : index7e buf with
              | none =>
                left
                simp [List.drop_length]
              | some j =>
                right; left
                have hieq : (index7e buf).getD buf.length = j := by rw [hidx]; rfl
                obtain ⟨hjlen, hj7e⟩ := index7e_some hidx
                rw [hieq] at hlen2
                simp only [Option.getD_some]
                have hL : (buf.drop j).length = 1 := by
                  simp only [List.length_drop] at hlen2 ⊢
                  omega
                have hH : (buf.drop j).getD 0 0 = buf.getD j 0 := by
                  rw [List.getD, List.getD, List.get?_drop, Nat.add_zero]
                cases hdrop : buf.drop j with
                | nil => rw [hdrop] at hL; simp at hL
                | cons a rest =>
                  rw [hdrop] at hL hH
                  simp only [List.length_cons] at hL
                  have hrest_nil : rest = [] := by
                    cases rest with
                    | nil => rfl
                    | cons x xs => simp at hL
                  have ha7e : a = 0x7e := by
                    simp only [List.getD, List.get?_cons_zero, Option.getD_some] at hH
                    rw [hH]
                    exact hj7e
                  rw [hrest_nil, ha7e]

theorem resyncLoop_spec (buf : List Nat) :
    (∃ k, (resyncLoop buf).2 = buf.drop k) ∧
    ((resyncLoop buf).1 = true →
      (resyncLoop buf).2 ≠ [] ∧ (resyncLoop buf).2.getD 0 0 = 0x7e) ∧
    ((resyncLoop buf).1 = false →
      (resyncLoop buf).2.length < 2 ∧
      ((resyncLoop buf).2 = [] ∨ (resyncLoop buf).2 = [0x7e] ∨ (resyncLoop buf).2 = buf)) :=
  resyncLoopF_spec buf.length buf le_rfl

/-- C6 counterexample: with buffer `[0x7e]`, one invocation of the resync
procedure neither synchronizes nor consumes the whole buffer (the lone 0x7e
is left in place, unsynchronized), so the claimed trichotomy fails. -/
theorem c6_counterexample :
    ¬ ((resynchronizeParser { initialState with inputBuffer := [0x7e] }).1 = true ∨
       (resynchronizeParser { initialState with inputBuffer := [0x7e] }).2.inputBuffer = []) := by
  decide

/-- C6 (amended): every invocation of the resync procedure increments the
resync counter by exactly one, and either (sync) reports synchronized with
the buffer a suffix of the original that is nonempty and starts with 0x7e
(on a double 0x7e everything through the first is discarded, as the concrete
example shows), or (no sync) reports not-synchronized with fewer than 2
bytes remaining: the buffer fully consumed, or a lone trailing 0x7e left in
place, or an original sub-2-byte buffer left untouched; feeding
`[0x88, 0x99, 0x7e, 0x7e, 0x11, 0x22]` leaves `[0x7e, 0x11, 0x22]`
synchronized. -/
theorem c6_resync_amended (st : DecoderState) :
    (resynchronizeParser st).2.resyncCount = st.resyncCount + 1 ∧
    (((resynchronizeParser st).1 = true ∧
       (resynchronizeParser st).2.parserSynchronized = true ∧
       (resynchronizeParser st).2.inputBuffer ≠ [] ∧
       (resynchronizeParser st).2.inputBuffer.getD 0 0 = 0x7e ∧
       (∃ k, (resynchronizeParser st).2.inputBuffer = st.inputBuffer.drop k)) ∨
     ((resynchronizeParser st).1 = false ∧
       (resynchronizeParser st).2.parserSynchronized = false ∧
       (resynchronizeParser st).2.inputBuffer.length < 2 ∧
       ((resynchronizeParser st).2.inputBuffer = [] ∨
        (resynchronizeParser st).2.inputBuffer = [0x7e] ∨
        (resynchronizeParser st).2.inputBuffer = st.inputBuffer) ∧
       (∃ k, (resynchronizeParser st).2.inputBuffer = st.inputBuffer.drop k))) ∧
    resynchronizeParser { initialState with inputBuffer := [0x88, 0x99, 0x7e, 0x7e, 0x11, 0x22] }
      = (true,
         { initialState with
            inputBuffer := [0x7e, 0x11, 0x22], parserSynchronized := true, resyncCount := 1 }) := by
  obtain ⟨⟨k, hk⟩, htrue, hfalse⟩ := resyncLoop_spec st.inputBuffer
  refine ⟨rfl, ?_, by decide⟩
  cases hr : (resyncLoop st.inputBuffer).1 with
  | true =>
    left
    obtain ⟨hne, hhd⟩ := htrue hr
    exact ⟨by simp [resynchronizeParser, hr], by simp [resynchronizeParser, hr],
      by simpa [resynchronizeParser] using hne,
      by simpa [resynchronizeParser] using hhd,
      ⟨k, by simpa [resynchronizeParser] using hk⟩⟩
  | false =>
    right
    obtain ⟨hlen, hforms⟩ := hfalse hr
    exact ⟨by simp [resynchronizeParser, hr], by simp [resynchronizeParser, hr],
      by simpa [resynchronizeParser] using hlen,
      by simpa [resynchronizeParser] using hforms,
      ⟨k, by simpa [resynchronizeParser] using hk⟩⟩


/-- A buffer of at least 2 bytes starting with 0x7e not followed by another
0x7e synchronizes immediately with the buffer untouched. -/
theorem resyncLoop_head7e (buf : List Nat) (h1 : buf.getD 0 0 = 0x7e)
    (h2 : buf.getD 1 0 ≠ 0x7e) (hlen : 2 ≤ buf.length) : resyncLoop buf = (true, buf) := by
  unfold resyncLoop
  obtain ⟨n, hn⟩ : ∃ n, buf.length = n + 1 := ⟨buf.length - 1, by omega⟩
  rw [hn, resyncLoopF_succ]
  rw [if_neg (by omega), if_neg (fun hcc => h2 hcc.2), if_pos h1]

theorem parseLoop_succ (fuel : Nat) (st : DecoderState) (acc : List Msg) :
    parseLoop (fuel + 1) st acc =
      if st.inputBuffer.length < 2 then .ok (st, acc)
      else if st.inputBuffer.getD 0 0 ≠ 0x7e then
        let r := resynchronizeParser st
        if r.1 = false then .ok (r.2, acc)
        else
          match extractFrameStep r.2 with
          | .error e => .error e
          | .ok (false, st', _) => .ok (st', acc)
          | .ok (true, st', m?) => parseLoop fuel st' (acc ++ m?.toList)
      else
        match extractFrameStep st with
        | .error e => .error e
        | .ok (false, st', _) => .ok (st', acc)
        | .ok (true, st', m?) => parseLoop fuel st' (acc ++ m?.toList) := rfl

/-- The message dispatch never touches the input buffer. -/
theorem dispatchMessage_ok_inputBuffer {st : DecoderState} {m : Msg} {st' : DecoderState}
    {m? : Option Msg} (h : dispatchMessage st m = .ok (st', m?)) :
    st'.inputBuffer = st.inputBuffer := by
  cases m with
  | heartbeat a b c d e =>
    simp only [dispatchMessage] at h
    injection h with h1
    exact (congrArg (fun r => r.1.inputBuffer) h1).symm
  | gpsTime hh mm w =>
    simp only [dispatchMessage] at h
    by_cases hg : st.gpsTimeReceived = false
    · rw [if_pos hg] at h
      cases hds : st.dayStart with
      | none => rw [hds] at h; cases h
      | some d =>
        rw [hds] at h
        injection h with h1
        exact (congrArg (fun r => r.1.inputBuffer) h1).symm
    · rw [if_neg hg] at h
      injection h with h1
      exact (congrArg (fun r => r.1.inputBuffer) h1).symm
  | uplinkData a b c =>
    simp only [dispatchMessage] at h
    injection h with h1
    exact (congrArg (fun r => r.1.inputBuffer) h1).symm
  | ownshipReport r =>
    simp only [dispatchMessage] at h
    injection h with h1
    exact (congrArg (fun r => r.1.inputBuffer) h1).symm
  | ownshipGeometricAltitude a b =>
    simp only [dispatchMessage] at h
    injection h with h1
    exact (congrArg (fun r => r.1.inputBuffer) h1).symm
  | trafficReport r =>
    simp only [dispatchMessage] at h
    injection h with h1
    exact (congrArg (fun r => r.1.inputBuffer) h1).symm

/-- Statistics after one good frame of message ID `msgId` on a fresh decoder. -/
def postStats (msgId : Nat) : List (Nat × Nat × Nat) :=
  statsIncGood (statsEnsure [(0, 0, 0)] msgId) msgId

/-- Fresh decoder with buffer `buf`, synchronized after one
resynchronization. -/
def syncedState (buf : List Nat) : DecoderState :=
  { initialState with inputBuffer := buf, parserSynchronized := true, resyncCount := 1 }

/-- Decoder state after consuming one whole valid frame of message ID
`msgId` on a fresh decoder: empty buffer, synchronized, one
resynchronization, one good frame counted. -/
def postState (msgId : Nat) : DecoderState :=
  { syncedState [] with statsMsgs := postStats msgId }

/-- Processing one complete, correctly CRC-protected frame built from payload
`p` (first byte not 0x7d/0x7e, at least 3 bytes) on a fresh decoder reduces to
the message-codec parse of `p` followed by the dispatch. -/
theorem addBytes_frame (p : List Nat) (h3 : 3 ≤ p.length)
    (hp7d : p.getD 0 0 ≠ 0x7d) (hp7e : p.getD 0 0 ≠ 0x7e) :
    addBytes initialState (0x7e :: (escape (p ++ crcCompute p) ++ [0x7e])) =
      match messageToObject p with
      | .error e => .error e
      | .ok none => .ok (postState (p.getD 0 0), [])
      | .ok (some m) =>
        match dispatchMessage (postState (p.getD 0 0)) m with
        | .error e => .error e
        | .ok (st', m?) => .ok (st', m?.toList) := by
  obtain ⟨p0, prest, rfl⟩ : ∃ a l, p = a :: l := by
    cases p with
    | nil => simp at h3
    | cons a l => exact ⟨a, l, rfl⟩
  have hp0d : p0 ≠ 0x7d := by simpa using hp7d
  have hp0e : p0 ≠ 0x7e := by simpa using hp7e
  have hprest : 2 ≤ prest.length := by
    have := h3
    simp only [List.length_cons] at this
    omega
  simp only [List.getD_cons_zero]
  set q := (p0 :: prest) ++ crcCompute (p0 :: prest) with hq
  have hql : q.length = prest.length + 3 := by
    simp [hq, crcCompute_length]
  set E := escape q with hEdef
  have hEcons : E = p0 :: escape (prest ++ crcCompute (p0 :: prest)) := by
    rw [hEdef, hq, List.cons_append]
    rw [escape.eq_def]
    dsimp only
    rw [if_neg (by tauto)]
  have hE7e : ∀ x ∈ E, x ≠ 0x7e := escape_not_mem_7e q
  set frame := 0x7e :: (E ++ [0x7e]) with hframe
  have hflen : frame.length = E.length + 2 := by simp [hframe]
  have hfget1 : frame.getD 1 0 = p0 := by rw [hframe, hEcons]; rfl
  -- resynchronization leaves the frame intact and synchronizes
  have hre : resyncLoop frame = (true, frame) := by
    apply resyncLoop_head7e
    · rw [hframe]; rfl
    · rw [hfget1]; exact hp0e
    · omega
  -- the first parse-loop iteration extracts the frame body E
  have hidx : index7e (frame.drop 1) = some E.length := by
    rw [hframe]
    show index7e (E ++ [0x7e]) = some E.length
    exact index7e_append_no7e hE7e []
  have htake : (frame.drop 1).take E.length = E := by
    rw [hframe]
    show (E ++ [0x7e]).take E.length = E
    exact List.take_left E [0x7e]
  have hdropall : frame.drop (E.length + 2) = [] := by
    apply List.drop_eq_nil_of_le
    omega
  -- decoding the body E
  have hun : unescape E = q := by rw [hEdef]; exact unescape_escape q
  have hqtake : q.take (q.length - 2) = p0 :: prest := by
    rw [hq]
    have h2 : ((p0 :: prest) ++ crcCompute (p0 :: prest)).length - 2 = (p0 :: prest).length := by
      simp [crcCompute_length]
    rw [h2]
    exact List.take_left _ _
  have hqdrop : q.drop (q.length - 2) = crcCompute (p0 :: prest) := by
    rw [hq]
    have h2 : ((p0 :: prest) ++ crcCompute (p0 :: prest)).length - 2 = (p0 :: prest).length := by
      simp [crcCompute_length]
    rw [h2]
    exact List.drop_left _ _
  -- now unfold the pipeline
  show parseMessages { initialState with inputBuffer := [] ++ frame } = _
  rw [List.nil_append]
  show (if false = false then
        let r := resynchronizeParser { initialState with inputBuffer := frame }
        if r.1 = false then .ok (r.2, [])
        else parseLoop (r.2.inputBuffer.length + 1) r.2 []
      else parseLoop (({ initialState with inputBuffer := frame} : DecoderState).inputBuffer.length + 1) { initialState with inputBuffer := frame } []) = _
  rw [if_pos rfl]
  have hre' : resyncLoop ({ initialState with inputBuffer := frame } : DecoderState).inputBuffer
      = (true, frame) := hre
  have hrp : resynchronizeParser { initialState with inputBuffer := frame }
      = (true, syncedState frame) := by
    simp only [resynchronizeParser, hre']
    rfl
  rw [hrp]
  dsimp only
  rw [if_neg (by simp)]
  have hsslen : (syncedState frame).inputBuffer.length + 1 = (E.length + 2) + 1 := by
    show frame.length + 1 = (E.length + 2) + 1
    omega
  rw [hsslen, parseLoop_succ]
  rw [if_neg (by show ¬ frame.length < 2; rw [hflen]; omega)]
  rw [if_neg (by show ¬ frame.getD 0 0 ≠ 0x7e; rw [hframe]; simp)]
  -- evaluate the frame-extraction step
  have hstep : extractFrameStep (syncedState frame)
      = (match decodeMessage (syncedState []) E with
         | .error e => .error e
         | .ok (st2, m?) => .ok (true, st2, m?)) := by
    rw [extractFrameStep]
    show (match index7e (frame.drop 1) with
      | none => Except.ok (false, syncedState frame, none)
      | some j =>
        match decodeMessage { syncedState frame with inputBuffer := frame.drop (j + 2) }
            ((frame.drop 1).take j) with
        | Except.error e => Except.error e
        | Except.ok (st2, m?) => Except.ok (true, st2, m?)) = _
    rw [hidx]
    dsimp only
    rw [htake, hdropall]
    rfl
  rw [hstep]
  have hdm : decodeMessage (syncedState []) E
      = (match messageToObject (p0 :: prest) with
         | .error e => .error e
         | .ok none => .ok (postState p0, none)
         | .ok (some m) => dispatchMessage (postState p0) m) := by
    rw [decodeMessage]
    dsimp only
    rw [hun, hqtake, hqdrop]
    rw [if_neg (by rw [hql]; omega)]
    rw [crcCheck_crcCompute]
    dsimp only
    rw [if_neg (by simp)]
    rfl
  rw [hdm]
  -- case split on the parse result
  cases hmo : messageToObject (p0 :: prest) with
  | error e => rfl
  | ok m? =>
    cases m? with
    | none =>
      dsimp only
      rw [parseLoop_succ]
      rw [if_pos (by show ([] : List Nat).length < 2; simp)]
      rfl
    | some m =>
      dsimp only
      cases hdi : dispatchMessage (postState p0) m with
      | error e => rfl
      | ok r =>
        obtain ⟨st4, m4?⟩ := r
        have hbuf4 : st4.inputBuffer = [] := dispatchMessage_ok_inputBuffer hdi
        dsimp only
        rw [parseLoop_succ]
        rw [if_pos (by rw [hbuf4]; simp)]
        rw [List.nil_append]


theorem messageToObject_wrongLen (p : List Nat) (h1 : p.length ≠ 0) (hlen : p.length ≠ 28)
    (hid : p.getD 0 0 = 10 ∨ p.getD 0 0 = 20) :
    messageToObject p = .error .assertionError := by
  rw [messageToObject, if_neg h1]
  rcases hid with h | h
  · rw [h]
    dsimp only
    rw [parseOwnshipReport, if_neg (fun hc => hlen hc.1)]
    rfl
  · rw [h]
    dsimp only
    rw [parseTrafficReport, if_neg (fun hc => hlen hc.1)]
    rfl

/-- C2 counterexample: the 3-byte payload `[10, 0, 0]`, framed with a valid
CRC, makes `addBytes` on a fresh decoder propagate an `AssertionError` (the
`assert len(msgBytes) == 28` of the ownship parser), refuting the claim that
such frames decode to an absent result without raising. -/
theorem c2_counterexample :
    crcCheck [10, 0, 0] (crcCompute [10, 0, 0]) = .ok true ∧
    ([10, 0, 0] : List Nat).length ≠ 28 ∧
    addBytes initialState (0x7e :: (escape ([10, 0, 0] ++ crcCompute [10, 0, 0]) ++ [0x7e]))
      = .error .assertionError :=
  ⟨crcCheck_crcCompute _, by decide, by rfl⟩

/-- C2 (amended): a frame whose CRC verifies, whose payload starts with
message ID 10 or 20 and has length at least 3 but different from 28, makes
the parse assertion fail: the stream decoder records the frame as good in
its statistics and then the `AssertionError` propagates out of `addBytes` —
decoding does not return an absent result. -/
theorem c2_wrong_length_raises (p : List Nat) (h3 : 3 ≤ p.length) (hlen : p.length ≠ 28)
    (hid : p.getD 0 0 = 10 ∨ p.getD 0 0 = 20) :
    addBytes initialState (0x7e :: (escape (p ++ crcCompute p) ++ [0x7e]))
      = .error .assertionError := by
  have h7d : p.getD 0 0 ≠ 0x7d := by rcases hid with h | h <;> omega
  have h7e : p.getD 0 0 ≠ 0x7e := by rcases hid with h | h <;> omega
  rw [addBytes_frame p h3 h7d h7e]
  rw [messageToObject_wrongLen p (by omega) hlen hid]

/-- Witness for C2 (amended) at the concrete payload `[10, 0, 0]`. -/
theorem c2_wrong_length_raises_witness :
    addBytes initialState (0x7e :: (escape ([10, 0, 0] ++ crcCompute [10, 0, 0]) ++ [0x7e]))
      = .error .assertionError :=
  c2_wrong_length_raises [10, 0, 0] (by decide) (by decide) (Or.inl rfl)


/-! ## Message encoder (`gdl90/encoder.py`, class `Encoder`) -/

/-- `Encoder._addCrc` followed by `Encoder._preparedMessage`: append the CRC,
escape, and wrap in 0x7e markers. -/
def preparedMessage (msg : List Nat) : List Nat :=
  0x7e :: (escape (msg ++ crcCompute msg) ++ [0x7e])

/-- `Encoder._pack24bit`: big-endian 3-byte packing of a 24-bit unsigned
value; raises `ValueError` when the value does not fit (the `num < 0` check
of the source is subsumed by the `Nat` domain). -/
def pack24bit (num : Nat) : Except PyErr (List Nat) :=
  if num &&& 0xFFFFFF ≠ num then .error .valueError
  else .ok [(num &&& 0xff0000) >>> 16, (num &&& 0x00ff00) >>> 8, num &&& 0xff]

/-- `Encoder._makeLatitude`: clamp to [-90, 90], scale by 2^23/180, truncate,
two's complement for negatives.  The Python constant `0x800000 / 180.0` is a
float; it is modelled as the exact rational. -/
def makeLatitude (latitude : ℚ) : Nat :=
  let lat1 := if latitude > 90 then (90 : ℚ) else latitude
  let lat2 := if lat1 < -90 then (-90 : ℚ) else lat1
  let r := pyInt (lat2 * (0x800000 / 180 : ℚ))
  if r < 0 then ((0x1000000 + r).toNat) &&& 0xffffff else r.toNat

/-- `Encoder._makeLongitude`: clamp to [-180, 180], scale, truncate, two's
complement for negatives. -/
def makeLongitude (longitude : ℚ) : Nat :=
  let lon1 := if longitude > 180 then (180 : ℚ) else longitude
  let lon2 := if lon1 < -180 then (-180 : ℚ) else lon1
  let r := pyInt (lon2 * (0x800000 / 180 : ℚ))
  if r < 0 then ((0x1000000 + r).toNat) &&& 0xffffff else r.toNat

/-- Python `bytearray(s, 'ascii')`: the character codes, raising
`UnicodeEncodeError` (modelled as `valueError`) on non-ASCII input. -/
def pyEncodeAscii (s : List Char) : Except PyErr (List Nat) :=
  if s.all (fun c => c.toNat < 128) then .ok (s.map Char.toNat) else .error .valueError

/-- The altitude local of `Encoder._msgType10and20` (lines
`altitude = int((altitude + 1000) / 25.0)` and the two clamps). -/
def encAltitude (altitude : ℤ) : Nat :=
  let alt0 := pyInt (((altitude : ℚ) + 1000) / 25)
  let alt1 := if alt0 < 0 then 0 else alt0
  (if alt1 > 0xffe then 0xffe else alt1).toNat

/-- The `hVelocity` local of `Encoder._msgType10and20` (None becomes 0xfff,
negatives 0, overflow 0xffe). -/
def encHVelocity (hVelocity : Option ℤ) : Nat :=
  match hVelocity with
  | none => 0xfff
  | some v => if v < 0 then 0 else if v > 0xffe then 0xffe else v.toNat

/-- The `vVelocity` local of `Encoder._msgType10and20` (None becomes 0x800,
overflows clamp to 0x1fe/0xe02, otherwise 64-fpm units in 24-bit two's
complement exactly as the source computes it). -/
def encVVelocity (vVelocity : Option ℤ) : Nat :=
  match vVelocity with
  | none => 0x800
  | some v =>
    if v > 32576 then 0x1fe
    else if v < -32576 then 0xe02
    else
      let v64 := pyInt ((v : ℚ) / 64)
      if v64 < 0 then ((0x1000000 + v64).toNat) &&& 0xffffff else v64.toNat

/-- The `trackHeading` local of `Encoder._msgType10and20`:
`int(trackHeading / (360 / 256.0)) & 0xff`; the Python `&` on a possibly
negative int equals the mathematical remainder `emod 256`. -/
def encTrackHeading (trackHeading : ℚ) : Nat :=
  ((pyInt (trackHeading / (360 / 256 : ℚ))).emod 256).toNat

/-- `Encoder._msgType10and20`: build the 28-byte ownship/traffic payload and
frame it.  Python string slicing `str(callSign + " " * 8)[:8]` is modelled on
the character list; `int(x)` is `pyInt`; the source locals for altitude,
velocities and heading are factored into the `enc*` helpers above. -/
def msgType10and20 (msgid status addrType : Nat) (address : Nat)
    (latitude longitude : ℚ) (altitude : ℤ) (misc navIntegrityCat navAccuracyCat : Nat)
    (hVelocity vVelocity : Option ℤ) (trackHeading : ℚ) (emitterCat : Nat)
    (callSign : String) (code : Nat) : Except PyErr (List Nat) :=
  match pack24bit address with
  | .error e => .error e
  | .ok addrBytes =>
  match pack24bit (makeLatitude latitude) with
  | .error e => .error e
  | .ok latBytes =>
  match pack24bit (makeLongitude longitude) with
  | .error e => .error e
  | .ok lonBytes =>
  match pyEncodeAscii ((callSign ++ "        ").data.take 8) with
  | .error e => .error e
  | .ok csBytes =>
    .ok (preparedMessage
      ([msgid, ((status &&& 0xf) <<< 4) ||| (addrType &&& 0xf)]
        ++ addrBytes ++ latBytes ++ lonBytes
        ++ [(encAltitude altitude &&& 0x0ff0) >>> 4,
            ((encAltitude altitude &&& 0x0f) <<< 4) ||| (misc &&& 0xf),
            ((navIntegrityCat &&& 0xf) <<< 4) ||| (navAccuracyCat &&& 0xf),
            (encHVelocity hVelocity &&& 0xff0) >>> 4,
            ((encHVelocity hVelocity &&& 0xf) <<< 4) ||| ((encVVelocity vVelocity &&& 0xf00) >>> 8),
            encVVelocity vVelocity &&& 0xff,
            encTrackHeading trackHeading,
            emitterCat &&& 0xff]
        ++ csBytes ++ [(code &&& 0xf) <<< 4]))

/-- `Encoder.msgOwnshipReport` (message ID 10). -/
def msgOwnshipReport (status addrType : Nat) (address : Nat) (latitude longitude : ℚ)
    (altitude : ℤ) (misc navIntegrityCat navAccuracyCat : Nat)
    (hVelocity vVelocity : Option ℤ) (trackHeading : ℚ) (emitterCat : Nat)
    (callSign : String) (code : Nat) : Except PyErr (List Nat) :=
  msgType10and20 10 status addrType address latitude longitude altitude misc
    navIntegrityCat navAccuracyCat hVelocity vVelocity trackHeading emitterCat callSign code

/-- `Encoder.msgTrafficReport` (message ID 20). -/
def msgTrafficReport (status addrType : Nat) (address : Nat) (latitude longitude : ℚ)
    (altitude : ℤ) (misc navIntegrityCat navAccuracyCat : Nat)
    (hVelocity vVelocity : Option ℤ) (trackHeading : ℚ) (emitterCat : Nat)
    (callSign : String) (code : Nat) : Except PyErr (List Nat) :=
  msgType10and20 20 status addrType address latitude longitude altitude misc
    navIntegrityCat navAccuracyCat hVelocity vVelocity trackHeading emitterCat callSign code

/-! ### Bit-manipulation toolkit for the encode/decode field proofs -/

theorem and_shiftLeft_mask (x c j : Nat) : x &&& (c <<< j) = ((x >>> j) &&& c) <<< j := by
  apply Nat.eq_of_testBit_eq
  intro i
  simp [Nat.testBit_and, Nat.testBit_shiftLeft, Nat.testBit_shiftRight]
  rcases Nat.lt_or_ge i j with h | h
  · simp [Nat.not_le.mpr h]
  · simp [h, Nat.add_sub_cancel' h]

theorem and_mask_div (x i j : Nat) :
    x &&& ((2 ^ i - 1) <<< j) = x / 2 ^ j % 2 ^ i * 2 ^ j := by
  rw [and_shiftLeft_mask, Nat.and_pow_two_sub_one_eq_mod, Nat.shiftRight_eq_div_pow,
    Nat.shiftLeft_eq]

theorem and_ff (x : Nat) : x &&& 0xff = x % 256 := by
  rw [show (0xff : Nat) = 2 ^ 8 - 1 by norm_num, Nat.and_pow_two_sub_one_eq_mod]

theorem and_f (x : Nat) : x &&& 0xf = x % 16 := by
  rw [show (0xf : Nat) = 2 ^ 4 - 1 by norm_num, Nat.and_pow_two_sub_one_eq_mod]

theorem and_ffffff (x : Nat) : x &&& 0xffffff = x % 16777216 := by
  rw [show (0xffffff : Nat) = 2 ^ 24 - 1 by norm_num, Nat.and_pow_two_sub_one_eq_mod]

theorem and_ff0_shr (x : Nat) : (x &&& 0xff0) >>> 4 = x / 16 % 256 := by
  rw [show (0xff0 : Nat) = (2 ^ 8 - 1) <<< 4 by decide, and_mask_div,
    Nat.shiftRight_eq_div_pow]
  simp only [Nat.reducePow]
  omega

theorem and_f00_shr (x : Nat) : (x &&& 0xf00) >>> 8 = x / 256 % 16 := by
  rw [show (0xf00 : Nat) = (2 ^ 4 - 1) <<< 8 by decide, and_mask_div,
    Nat.shiftRight_eq_div_pow]
  simp only [Nat.reducePow]
  omega

theorem and_f0_shr (x : Nat) : (x &&& 0xf0) >>> 4 = x / 16 % 16 := by
  rw [show (0xf0 : Nat) = (2 ^ 4 - 1) <<< 4 by decide, and_mask_div,
    Nat.shiftRight_eq_div_pow]
  simp only [Nat.reducePow]
  omega

theorem and_ff0000_shr (x : Nat) : (x &&& 0xff0000) >>> 16 = x / 65536 % 256 := by
  rw [show (0xff0000 : Nat) = (2 ^ 8 - 1) <<< 16 by decide, and_mask_div,
    Nat.shiftRight_eq_div_pow]
  simp only [Nat.reducePow]
  omega

theorem and_ff00_shr (x : Nat) : (x &&& 0x00ff00) >>> 8 = x / 256 % 256 := by
  rw [show (0x00ff00 : Nat) = (2 ^ 8 - 1) <<< 8 by decide, and_mask_div,
    Nat.shiftRight_eq_div_pow]
  simp only [Nat.reducePow]
  omega

theorem lor_nibbles16 : ∀ x < 16, ∀ y < 16, ((x <<< 4) ||| y) = 16 * x + y := by decide

theorem status_mask_zero : ∀ b < 256, (b &&& 0x0b11110000) >>> 4 = 0 := by decide

theorem thunkByte_p4 (b mask : Nat) : thunkByte b mask 4 = (b &&& mask) <<< 4 := rfl

theorem thunkByte_p8 (b mask : Nat) : thunkByte b mask 8 = (b &&& mask) <<< 8 := rfl

theorem thunkByte_m4 (b mask : Nat) : thunkByte b mask (-4) = (b &&& mask) >>> 4 := rfl

theorem thunkByte_z (b mask : Nat) : thunkByte b mask 0 = b &&& mask := rfl

theorem pack24bit_ok (w : Nat) (h : w < 0x1000000) :
    pack24bit w = .ok [w / 65536, w / 256 % 256, w % 256] := by
  have hmask : w &&& 0xFFFFFF = w := by
    rw [and_ffffff]
    omega
  rw [pack24bit, if_neg (by rw [hmask]; exact fun hc => hc rfl)]
  have h1 : (w &&& 0xff0000) >>> 16 = w / 65536 := by
    rw [and_ff0000_shr]
    omega
  have h2 : (w &&& 0x00ff00) >>> 8 = w / 256 % 256 := and_ff00_shr w
  have h3 : w &&& 0xff = w % 256 := and_ff w
  rw [h1, h2, h3]

theorem recomp24 (w : Nat) (h : w < 0x1000000) :
    ((w / 65536) <<< 16) + ((w / 256 % 256) <<< 8) + (w % 256) = w := by
  simp only [Nat.shiftLeft_eq]
  norm_num
  omega

/-- Two's complement encoding of a 24-bit signed value, as the
`_makeLatitude`/`_makeLongitude` bodies compute it after clamping. -/
def twos24 (r : ℤ) : Nat :=
  if r < 0 then ((0x1000000 + r).toNat) &&& 0xffffff else r.toNat

theorem makeLatitude_eq (lat : ℚ) (h1 : -90 ≤ lat) (h2 : lat ≤ 90) :
    makeLatitude lat = twos24 (pyInt (lat * (0x800000 / 180 : ℚ))) := by
  simp only [makeLatitude, twos24]
  rw [if_neg (not_lt.mpr h2), if_neg (not_lt.mpr h1)]

theorem makeLongitude_eq (lon : ℚ) (h1 : -180 ≤ lon) (h2 : lon ≤ 180) :
    makeLongitude lon = twos24 (pyInt (lon * (0x800000 / 180 : ℚ))) := by
  simp only [makeLongitude, twos24]
  rw [if_neg (not_lt.mpr h2), if_neg (not_lt.mpr h1)]

theorem twos24_lt (r : ℤ) (hlo : -(2 ^ 23) ≤ r) (hhi : r < 2 ^ 23) :
    twos24 r < 0x1000000 := by
  rw [twos24]
  by_cases hr : r < 0
  · rw [if_pos hr, and_ffffff]
    omega
  · rw [if_neg hr]
    omega

theorem twos24_signed (r : ℤ) (hlo : -(2 ^ 23) ≤ r) (hhi : r < 2 ^ 23) :
    (if twos24 r > 0x7FFFFF then ((twos24 r : Nat) : ℤ) - 0x1000000
     else ((twos24 r : Nat) : ℤ)) = r := by
  rw [twos24]
  by_cases hr : r < 0
  · rw [if_pos hr, and_ffffff]
    have hval : ((0x1000000 + r).toNat) % 16777216 = (0x1000000 + r).toNat := by
      apply Nat.mod_eq_of_lt
      omega
    rw [hval, if_pos (by omega)]
    omega
  · rw [if_neg hr, if_neg (by omega)]
    omega


/-! ### Supporting lemmas for the encode/decode round trip -/

theorem pyInt_nonpos {q : ℚ} (h : ¬ 0 ≤ q) : pyInt q ≤ 0 := by
  rw [pyInt_eq_neg_floor_neg h]
  have h0 : (0 : ℚ) ≤ -q := by linarith [not_le.mp h]
  have := Int.floor_nonneg.mpr h0
  omega

theorem pyInt_ge (q : ℚ) (c : ℤ) (hc : c ≤ 0) (hq : (c : ℚ) ≤ q) : c ≤ pyInt q := by
  by_cases h : 0 ≤ q
  · have := pyInt_nonneg h
    omega
  · exact le_pyInt_of_nonpos c h hq

theorem pyInt_lt (q : ℚ) (c : ℤ) (hc : 0 < c) (hq : q < (c : ℚ)) : pyInt q < c := by
  by_cases h : 0 ≤ q
  · rw [pyInt_eq_floor h]
    exact Int.floor_lt.mpr hq
  · have := pyInt_nonpos h
    omega

theorem pyInt_trunc_le (q : ℚ) (h : 0 ≤ q) : (pyInt q : ℚ) ≤ q := by
  rw [pyInt_eq_floor h]
  exact Int.floor_le q

theorem pyInt_trunc_gt (q : ℚ) (h : 0 ≤ q) : q - 1 < (pyInt q : ℚ) := by
  rw [pyInt_eq_floor h]
  exact Int.sub_one_lt_floor q

theorem string_mk_data (s : String) : String.mk s.data = s := rfl

theorem pyStrBytearray_data (bs : List Nat) :
    (pyStrBytearray bs).data
      = ("bytearray(b" ++ String.mk [Char.ofNat 39] ++ String.mk (bs.map Char.ofNat)
          ++ String.mk [Char.ofNat 39]).data ++ [Char.ofNat 41] := by
  rw [pyStrBytearray, String.data_append]

/-- The Python-3 `str(bytearray)` text always ends in a closing parenthesis,
so `rstrip` leaves it unchanged. -/
theorem rstrip_pyStrBytearray (bs : List Nat) :
    rstrip (pyStrBytearray bs) = pyStrBytearray bs := by
  rw [rstrip, pyStrBytearray_data, List.reverse_append]
  have hr : ([Char.ofNat 41] : List Char).reverse = [Char.ofNat 41] := rfl
  rw [hr, List.singleton_append, List.dropWhile_cons, if_neg (by decide)]
  rw [List.reverse_cons, List.reverse_reverse, ← pyStrBytearray_data]

/-- The Python-3 `str(bytearray)` text is never the empty string. -/
theorem pyStrBytearray_ne_empty (bs : List Nat) : pyStrBytearray bs ≠ "" := by
  intro h
  have hd := congrArg String.data h
  rw [pyStrBytearray_data] at hd
  have hnil : ("" : String).data = [] := rfl
  rw [hnil] at hd
  exact absurd hd (by simp)

theorem list_eight (l : List Nat) (h : l.length = 8) :
    ∃ a b c d e f g h8, l = [a, b, c, d, e, f, g, h8] := by
  cases l with
  | nil => simp at h
  | cons a l1 =>
  cases l1 with
  | nil => simp at h
  | cons b l2 =>
  cases l2 with
  | nil => simp at h
  | cons c l3 =>
  cases l3 with
  | nil => simp at h
  | cons d l4 =>
  cases l4 with
  | nil => simp at h
  | cons e l5 =>
  cases l5 with
  | nil => simp at h
  | cons f l6 =>
  cases l6 with
  | nil => simp at h
  | cons g l7 =>
  cases l7 with
  | nil => simp at h
  | cons h8 l8 =>
  cases l8 with
  | nil => exact ⟨a, b, c, d, e, f, g, h8, rfl⟩
  | cons i l9 =>
    simp only [List.length_cons] at h
    omega

/-- Successful evaluation of the ownship/traffic encoder: when the address
fits in 24 bits and the call sign is ASCII, the encoder produces the framed
28-byte payload spelled out byte by byte. -/
theorem msgType10and20_ok (msgid status addrType address : Nat)
    (latitude longitude : ℚ) (altitude : ℤ) (misc navIntegrityCat navAccuracyCat : Nat)
    (hVelocity vVelocity : Option ℤ) (trackHeading : ℚ) (emitterCat : Nat)
    (callSign : String) (code : Nat) (k0 k1 k2 k3 k4 k5 k6 k7 : Nat)
    (ha : address < 0x1000000)
    (hlat : makeLatitude latitude < 0x1000000)
    (hlon : makeLongitude longitude < 0x1000000)
    (hascii : ((callSign ++ "        ").data.take 8).all (fun c => c.toNat < 128) = true)
    (hk : ((callSign ++ "        ").data.take 8).map Char.toNat
      = [k0, k1, k2, k3, k4, k5, k6, k7]) :
    msgType10and20 msgid status addrType address latitude longitude altitude misc
        navIntegrityCat navAccuracyCat hVelocity vVelocity trackHeading emitterCat
        callSign code
      = .ok (preparedMessage
        [msgid, ((status &&& 0xf) <<< 4) ||| (addrType &&& 0xf),
         address / 65536, address / 256 % 256, address % 256,
         makeLatitude latitude / 65536, makeLatitude latitude / 256 % 256,
         makeLatitude latitude % 256,
         makeLongitude longitude / 65536, makeLongitude longitude / 256 % 256,
         makeLongitude longitude % 256,
         (encAltitude altitude &&& 0x0ff0) >>> 4,
         ((encAltitude altitude &&& 0x0f) <<< 4) ||| (misc &&& 0xf),
         ((navIntegrityCat &&& 0xf) <<< 4) ||| (navAccuracyCat &&& 0xf),
         (encHVelocity hVelocity &&& 0xff0) >>> 4,
         ((encHVelocity hVelocity &&& 0xf) <<< 4) ||| ((encVVelocity vVelocity &&& 0xf00) >>> 8),
         encVVelocity vVelocity &&& 0xff,
         encTrackHeading trackHeading,
         emitterCat &&& 0xff,
         k0, k1, k2, k3, k4, k5, k6, k7,
         (code &&& 0xf) <<< 4]) := by
  rw [msgType10and20, pack24bit_ok address ha, pack24bit_ok _ hlat, pack24bit_ok _ hlon,
    pyEncodeAscii, if_pos hascii, hk]
  rfl


/-- C1 (amended): encoding a valid ownship field tuple and running the frame
through the full stream decoder reproduces address type, address, misc, NIC,
NACp, emitter category and code exactly, latitude and longitude within one
LSB of the 2^23/180 fixed-point scale, altitude within its 25-ft quantization
step (truncated downward, so up to 25 ft of error rather than the claimed
12.5), track/heading within its 360/256-degree step (truncated downward, up
to 1.40625 degrees rather than the claimed 0.703), while the Status field
always decodes to 0 (the decoder masks it with the hexadecimal-typo constant
0x0b11110000) and the call sign decodes to the Python-3 `str(bytearray(...))`
rendering of the padded 8-byte slice rather than the original text. -/
theorem c1_ownship_roundtrip
    (status addrType address misc navIntegrityCat navAccuracyCat emitterCat code : Nat)
    (latitude longitude trackHeading : ℚ) (altitude : ℤ)
    (hVelocity vVelocity : Option ℤ) (callSign : String)
    (hst : status < 16) (hat : addrType < 16) (had : address < 0x1000000)
    (hlat1 : -90 ≤ latitude) (hlat2 : latitude ≤ 90)
    (hlon1 : -180 ≤ longitude) (hlon2 : longitude < 180)
    (halt1 : -1000 ≤ altitude) (halt2 : altitude ≤ 101374)
    (hmisc : misc < 16) (hnic : navIntegrityCat < 16) (hnacp : navAccuracyCat < 16)
    (hth1 : 0 ≤ trackHeading) (hth2 : trackHeading < 360)
    (hec : emitterCat < 256) (hcode : code < 16)
    (hcs : ∀ c ∈ (callSign ++ "        ").data.take 8,
      0x20 ≤ c.toNat ∧ c.toNat < 127 ∧ c.toNat ≠ 39 ∧ c.toNat ≠ 92) :
    ∃ f st r,
      msgOwnshipReport status addrType address latitude longitude altitude misc
          navIntegrityCat navAccuracyCat hVelocity vVelocity trackHeading emitterCat
          callSign code = .ok f ∧
      addBytes initialState f = .ok (st, [Msg.ownshipReport r]) ∧
      r.status = 0 ∧
      r.rtype = addrType ∧
      r.address = address ∧
      |r.latitude - latitude| < 180 / 2 ^ 23 ∧
      |r.longitude - longitude| < 180 / 2 ^ 23 ∧
      altitude - 25 < r.altitude ∧ r.altitude ≤ altitude ∧
      r.misc = misc ∧
      r.navIntegrityCat = navIntegrityCat ∧
      r.navAccuracyCat = navAccuracyCat ∧
      trackHeading - 360 / 256 < r.trackHeading ∧ r.trackHeading ≤ trackHeading ∧
      r.emitterCat = emitterCat ∧
      r.callSign = pyStrBytearray (((callSign ++ "        ").data.take 8).map Char.toNat) ∧
      r.code = code := by
  -- call-sign bytes
  have hascii : ((callSign ++ "        ").data.take 8).all (fun c => c.toNat < 128) = true := by
    rw [List.all_eq_true]
    intro c hc
    simp only [decide_eq_true_eq]
    have h2 := (hcs c hc).2.1
    omega
  have hcslen : (((callSign ++ "        ").data.take 8).map Char.toNat).length = 8 := by
    rw [List.length_map, List.length_take]
    have h8 : 8 ≤ (callSign ++ "        ").data.length := by
      rw [String.data_append, List.length_append]
      have hsp : ("        " : String).data.length = 8 := rfl
      omega
    omega
  obtain ⟨k0, k1, k2, k3, k4, k5, k6, k7, hk⟩ := list_eight _ hcslen
  -- scaled coordinate values and their 24-bit bounds
  obtain ⟨qlat, hqlat⟩ : ∃ q : ℚ, q = latitude * (0x800000 / 180 : ℚ) := ⟨_, rfl⟩
  obtain ⟨qlon, hqlon⟩ : ∃ q : ℚ, q = longitude * (0x800000 / 180 : ℚ) := ⟨_, rfl⟩
  have hKpos : (0 : ℚ) < (0x800000 / 180 : ℚ) := by norm_num
  have hlatK_lo : (-4194304 : ℚ) ≤ qlat := by
    have h1 := mul_le_mul_of_nonneg_right hlat1 (le_of_lt hKpos)
    rw [← hqlat] at h1
    have hnum : (-90 : ℚ) * (0x800000 / 180) = -4194304 := by norm_num
    linarith [hnum ▸ h1]
  have hlatK_hi : qlat ≤ 4194304 := by
    have h1 := mul_le_mul_of_nonneg_right hlat2 (le_of_lt hKpos)
    rw [← hqlat] at h1
    have hnum : (90 : ℚ) * (0x800000 / 180) = 4194304 := by norm_num
    linarith [hnum ▸ h1]
  have hlonK_lo : (-8388608 : ℚ) ≤ qlon := by
    have h1 := mul_le_mul_of_nonneg_right hlon1 (le_of_lt hKpos)
    rw [← hqlon] at h1
    have hnum : (-180 : ℚ) * (0x800000 / 180) = -8388608 := by norm_num
    linarith [hnum ▸ h1]
  have hlonK_hi : qlon < 8388608 := by
    have h1 := mul_lt_mul_of_pos_right hlon2 hKpos
    rw [← hqlon] at h1
    have hnum : (180 : ℚ) * (0x800000 / 180) = 8388608 := by norm_num
    linarith [hnum ▸ h1]
  have hrlat_lo : -(2 ^ 23) ≤ pyInt qlat := pyInt_ge qlat _ (by norm_num) (by push_cast; linarith)
  have hrlat_hi : pyInt qlat < 2 ^ 23 := pyInt_lt qlat _ (by norm_num) (by push_cast; linarith)
  have hrlon_lo : -(2 ^ 23) ≤ pyInt qlon := pyInt_ge qlon _ (by norm_num) (by push_cast; linarith)
  have hrlon_hi : pyInt qlon < 2 ^ 23 := pyInt_lt qlon _ (by norm_num) (by push_cast; linarith)
  have hwlat : makeLatitude latitude = twos24 (pyInt qlat) := by
    rw [makeLatitude_eq latitude hlat1 hlat2, ← hqlat]
  have hwlon : makeLongitude longitude = twos24 (pyInt qlon) := by
    rw [makeLongitude_eq longitude hlon1 (le_of_lt hlon2), ← hqlon]
  have hwlat_lt : makeLatitude latitude < 0x1000000 := by
    rw [hwlat]
    exact twos24_lt _ hrlat_lo hrlat_hi
  have hwlon_lt : makeLongitude longitude < 0x1000000 := by
    rw [hwlon]
    exact twos24_lt _ hrlon_lo hrlon_hi
  -- the encoder output
  have henc := msgType10and20_ok 10 status addrType address latitude longitude altitude misc
    navIntegrityCat navAccuracyCat hVelocity vVelocity trackHeading emitterCat callSign code
    k0 k1 k2 k3 k4 k5 k6 k7 had hwlat_lt hwlon_lt hascii hk
  obtain ⟨P, hPdef⟩ : ∃ P : List Nat,
      P = [10, ((status &&& 0xf) <<< 4) ||| (addrType &&& 0xf),
        address / 65536, address / 256 % 256, address % 256,
        makeLatitude latitude / 65536, makeLatitude latitude / 256 % 256,
        makeLatitude latitude % 256,
        makeLongitude longitude / 65536, makeLongitude longitude / 256 % 256,
        makeLongitude longitude % 256,
        (encAltitude altitude &&& 0x0ff0) >>> 4,
        ((encAltitude altitude &&& 0x0f) <<< 4) ||| (misc &&& 0xf),
        ((navIntegrityCat &&& 0xf) <<< 4) ||| (navAccuracyCat &&& 0xf),
        (encHVelocity hVelocity &&& 0xff0) >>> 4,
        ((encHVelocity hVelocity &&& 0xf) <<< 4) ||| ((encVVelocity vVelocity &&& 0xf00) >>> 8),
        encVVelocity vVelocity &&& 0xff,
        encTrackHeading trackHeading,
        emitterCat &&& 0xff,
        k0, k1, k2, k3, k4, k5, k6, k7,
        (code &&& 0xf) <<< 4] := ⟨_, rfl⟩
  rw [← hPdef] at henc
  have hPlen : P.length = 28 := by rw [hPdef]; rfl
  have h3 : 3 ≤ P.length := by omega
  have h7d : P.getD 0 0 ≠ 0x7d := by
    rw [hPdef]
    simp only [List.getD_cons_zero]
    omega
  have h7e : P.getD 0 0 ≠ 0x7e := by
    rw [hPdef]
    simp only [List.getD_cons_zero]
    omega
  -- decoded fields
  have hb1 : ((status &&& 0xf) <<< 4) ||| (addrType &&& 0xf) = 16 * status + addrType := by
    rw [and_f, and_f, Nat.mod_eq_of_lt hst, Nat.mod_eq_of_lt hat]
    exact lor_nibbles16 status hst addrType hat
  have hfstatus : (parseMessageType10and20 P).status = 0 := by
    have h0 : (parseMessageType10and20 P).status
        = thunkByte (((status &&& 0xf) <<< 4) ||| (addrType &&& 0xf)) 0x0b11110000 (-4) := by
      rw [hPdef]
      rfl
    rw [h0, thunkByte_m4, hb1]
    exact status_mask_zero _ (by omega)
  have hfrtype : (parseMessageType10and20 P).rtype = addrType := by
    have h0 : (parseMessageType10and20 P).rtype
        = thunkByte (((status &&& 0xf) <<< 4) ||| (addrType &&& 0xf)) 0b00001111 0 := by
      rw [hPdef]
      rfl
    rw [h0, thunkByte_z, hb1, and_f]
    omega
  have hfaddr : (parseMessageType10and20 P).address = address := by
    have h0 : (parseMessageType10and20 P).address
        = ((address / 65536) <<< 16) + ((address / 256 % 256) <<< 8) + address % 256 := by
      rw [hPdef]
      rfl
    rw [h0]
    exact recomp24 address had
  have hone : ((0x800000 : ℚ) / 180) * (180 / 2 ^ 23) = 1 := by norm_num
  have hlatmul : qlat * (180 / 2 ^ 23) = latitude := by
    rw [hqlat]
    calc latitude * (0x800000 / 180 : ℚ) * (180 / 2 ^ 23)
        = latitude * (((0x800000 : ℚ) / 180) * (180 / 2 ^ 23)) := by ring
      _ = latitude := by rw [hone, mul_one]
  have hlonmul : qlon * (180 / 2 ^ 23) = longitude := by
    rw [hqlon]
    calc longitude * (0x800000 / 180 : ℚ) * (180 / 2 ^ 23)
        = longitude * (((0x800000 : ℚ) / 180) * (180 / 2 ^ 23)) := by ring
      _ = longitude := by rw [hone, mul_one]
  have hflat : |(parseMessageType10and20 P).latitude - latitude| < 180 / 2 ^ 23 := by
    have h0 : (parseMessageType10and20 P).latitude
        = (signed24 (P.drop 5) false : ℚ) * (180 / 2 ^ 23) := by rw [hPdef]; rfl
    have h1 : unsigned24 (P.drop 5) false
        = ((makeLatitude latitude / 65536) <<< 16) + ((makeLatitude latitude / 256 % 256) <<< 8)
          + makeLatitude latitude % 256 := by rw [hPdef]; rfl
    have hu : unsigned24 (P.drop 5) false = twos24 (pyInt qlat) := by
      rw [h1, hwlat]
      exact recomp24 _ (twos24_lt _ hrlat_lo hrlat_hi)
    have hs : signed24 (P.drop 5) false = pyInt qlat := by
      simp only [signed24]
      rw [hu]
      exact twos24_signed _ hrlat_lo hrlat_hi
    rw [h0, hs, ← hlatmul, ← sub_mul, abs_mul,
      abs_of_pos (show (0 : ℚ) < 180 / 2 ^ 23 by norm_num)]
    have hlt := mul_lt_mul_of_pos_right (abs_pyInt_sub_lt_one qlat)
      (show (0 : ℚ) < 180 / 2 ^ 23 by norm_num)
    linarith
  have hflon : |(parseMessageType10and20 P).longitude - longitude| < 180 / 2 ^ 23 := by
    have h0 : (parseMessageType10and20 P).longitude
        = (signed24 (P.drop 8) false : ℚ) * (180 / 2 ^ 23) := by rw [hPdef]; rfl
    have h1 : unsigned24 (P.drop 8) false
        = ((makeLongitude longitude / 65536) <<< 16)
          + ((makeLongitude longitude / 256 % 256) <<< 8)
          + makeLongitude longitude % 256 := by rw [hPdef]; rfl
    have hu : unsigned24 (P.drop 8) false = twos24 (pyInt qlon) := by
      rw [h1, hwlon]
      exact recomp24 _ (twos24_lt _ hrlon_lo hrlon_hi)
    have hs : signed24 (P.drop 8) false = pyInt qlon := by
      simp only [signed24]
      rw [hu]
      exact twos24_signed _ hrlon_lo hrlon_hi
    rw [h0, hs, ← hlonmul, ← sub_mul, abs_mul,
      abs_of_pos (show (0 : ℚ) < 180 / 2 ^ 23 by norm_num)]
    have hlt := mul_lt_mul_of_pos_right (abs_pyInt_sub_lt_one qlon)
      (show (0 : ℚ) < 180 / 2 ^ 23 by norm_num)
    linarith
  -- altitude
  obtain ⟨qalt, hqalt⟩ : ∃ q : ℚ, q = ((altitude : ℚ) + 1000) / 25 := ⟨_, rfl⟩
  have haltlo : (-1000 : ℚ) ≤ (altitude : ℚ) := by exact_mod_cast halt1
  have halthi : (altitude : ℚ) ≤ 101374 := by exact_mod_cast halt2
  have hq0 : 0 ≤ qalt := by
    rw [hqalt]
    linarith
  have ha0lo : 0 ≤ pyInt qalt := pyInt_nonneg hq0
  have ha0hi : pyInt qalt < 4095 := by
    apply pyInt_lt _ _ (by norm_num)
    rw [hqalt]
    push_cast
    linarith
  have hencAlt : encAltitude altitude = (pyInt qalt).toNat := by
    simp only [encAltitude]
    rw [← hqalt, if_neg (by omega), if_neg (by omega)]
  have haN : encAltitude altitude < 4096 := by
    rw [hencAlt]
    omega
  have hB11 : (encAltitude altitude &&& 0x0ff0) >>> 4 = encAltitude altitude / 16 := by
    rw [and_ff0_shr]
    omega
  have hB12 : ((encAltitude altitude &&& 0x0f) <<< 4) ||| (misc &&& 0xf)
      = 16 * (encAltitude altitude % 16) + misc := by
    rw [and_f, and_f, Nat.mod_eq_of_lt hmisc]
    exact lor_nibbles16 _ (Nat.mod_lt _ (by norm_num)) misc hmisc
  have hfalt_eq : (parseMessageType10and20 P).altitude = (encAltitude altitude : ℤ) * 25 - 1000 := by
    have h0 : (parseMessageType10and20 P).altitude
        = ((thunkByte ((encAltitude altitude &&& 0x0ff0) >>> 4) 0xff 4
            + thunkByte (((encAltitude altitude &&& 0x0f) <<< 4) ||| (misc &&& 0xf)) 0xf0 (-4)
            : Nat) : ℤ) * 25 - 1000 := by rw [hPdef]; rfl
    rw [h0, thunkByte_p4, thunkByte_m4, hB11, hB12, and_ff, and_f0_shr, Nat.shiftLeft_eq]
    have hN : encAltitude altitude / 16 % 256 * 2 ^ 4
        + (16 * (encAltitude altitude % 16) + misc) / 16 % 16 = encAltitude altitude := by
      have h16 : (2 : ℕ) ^ 4 = 16 := rfl
      rw [h16]
      omega
    rw [hN]
  have hcastalt : ((pyInt qalt).toNat : ℤ) = pyInt qalt := Int.toNat_of_nonneg ha0lo
  have hqmul : qalt * 25 = (altitude : ℚ) + 1000 := by
    rw [hqalt]
    exact div_mul_cancel₀ _ (by norm_num)
  have hfalt_ub : (parseMessageType10and20 P).altitude ≤ altitude := by
    rw [hfalt_eq, hencAlt, hcastalt]
    have htr := pyInt_trunc_le qalt hq0
    have h1 : (pyInt qalt : ℚ) * 25 ≤ (altitude : ℚ) + 1000 := by linarith [htr, hqmul]
    have h2 : pyInt qalt * 25 ≤ altitude + 1000 := by exact_mod_cast h1
    omega
  have hfalt_lb : altitude - 25 < (parseMessageType10and20 P).altitude := by
    rw [hfalt_eq, hencAlt, hcastalt]
    have htr := pyInt_trunc_gt qalt hq0
    have h1 : (altitude : ℚ) + 1000 - 25 < (pyInt qalt : ℚ) * 25 := by linarith [htr, hqmul]
    have h2 : altitude + 1000 - 25 < pyInt qalt * 25 := by exact_mod_cast h1
    omega
  have hfmisc : (parseMessageType10and20 P).misc = misc := by
    have h0 : (parseMessageType10and20 P).misc
        = thunkByte (((encAltitude altitude &&& 0x0f) <<< 4) ||| (misc &&& 0xf)) 0x0f 0 := by
      rw [hPdef]
      rfl
    rw [h0, thunkByte_z, hB12, and_f]
    omega
  have hb13 : ((navIntegrityCat &&& 0xf) <<< 4) ||| (navAccuracyCat &&& 0xf)
      = 16 * navIntegrityCat + navAccuracyCat := by
    rw [and_f, and_f, Nat.mod_eq_of_lt hnic, Nat.mod_eq_of_lt hnacp]
    exact lor_nibbles16 _ hnic _ hnacp
  have hfnic : (parseMessageType10and20 P).navIntegrityCat = navIntegrityCat := by
    have h0 : (parseMessageType10and20 P).navIntegrityCat
        = thunkByte (((navIntegrityCat &&& 0xf) <<< 4) ||| (navAccuracyCat &&& 0xf)) 0xf0 (-4) := by
      rw [hPdef]
      rfl
    rw [h0, thunkByte_m4, hb13, and_f0_shr]
    omega
  have hfnacp : (parseMessageType10and20 P).navAccuracyCat = navAccuracyCat := by
    have h0 : (parseMessageType10and20 P).navAccuracyCat
        = thunkByte (((navIntegrityCat &&& 0xf) <<< 4) ||| (navAccuracyCat &&& 0xf)) 0x0f 0 := by
      rw [hPdef]
      rfl
    rw [h0, thunkByte_z, hb13, and_f]
    omega
  -- track heading
  obtain ⟨qth, hqth⟩ : ∃ q : ℚ, q = trackHeading / (360 / 256 : ℚ) := ⟨_, rfl⟩
  have hqth0 : 0 ≤ qth := by
    rw [hqth]
    exact div_nonneg hth1 (by norm_num)
  have hth0 : 0 ≤ pyInt qth := pyInt_nonneg hqth0
  have hthlt : pyInt qth < 256 := by
    apply pyInt_lt _ _ (by norm_num)
    rw [hqth, div_lt_iff (by norm_num : (0 : ℚ) < 360 / 256)]
    have h360 : ((256 : ℤ) : ℚ) * (360 / 256) = 360 := by norm_num
    rw [h360]
    exact hth2
  have hemod : (pyInt qth).emod 256 = pyInt qth := Int.emod_eq_of_lt hth0 hthlt
  have hencTh : encTrackHeading trackHeading = (pyInt qth).toNat := by
    rw [encTrackHeading, ← hqth, hemod]
  have hfth_eq : (parseMessageType10and20 P).trackHeading
      = ((pyInt qth).toNat : ℚ) * (360 / 256) := by
    have h0 : (parseMessageType10and20 P).trackHeading
        = (encTrackHeading trackHeading : ℚ) * (360 / 256) := by rw [hPdef]; rfl
    rw [h0, hencTh]
  have hcastth : ((pyInt qth).toNat : ℚ) = ((pyInt qth : ℤ) : ℚ) := by
    exact_mod_cast Int.toNat_of_nonneg hth0
  have hmulc : qth * (360 / 256) = trackHeading := by
    rw [hqth]
    exact div_mul_cancel₀ _ (by norm_num)
  have htr_le := pyInt_trunc_le qth hqth0
  have htr_gt := pyInt_trunc_gt qth hqth0
  have hfth_ub : (parseMessageType10and20 P).trackHeading ≤ trackHeading := by
    rw [hfth_eq, hcastth, ← hmulc]
    exact mul_le_mul_of_nonneg_right htr_le (by norm_num)
  have hfth_lb : trackHeading - 360 / 256 < (parseMessageType10and20 P).trackHeading := by
    rw [hfth_eq, hcastth, ← hmulc]
    have hlt := mul_lt_mul_of_pos_right htr_gt (show (0 : ℚ) < 360 / 256 by norm_num)
    calc qth * (360 / 256) - 360 / 256 = (qth - 1) * (360 / 256) := by ring
      _ < (pyInt qth : ℚ) * (360 / 256) := hlt
  have hfec : (parseMessageType10and20 P).emitterCat = emitterCat := by
    have h0 : (parseMessageType10and20 P).emitterCat = emitterCat &&& 0xff := by rw [hPdef]; rfl
    rw [h0, and_ff]
    omega
  have hfcs : (parseMessageType10and20 P).callSign
      = pyStrBytearray [k0, k1, k2, k3, k4, k5, k6, k7] := by
    have h0 : (parseMessageType10and20 P).callSign
        = (if rstrip (pyStrBytearray ((P.drop 19).take 8)) = "" then "-"
           else rstrip (pyStrBytearray ((P.drop 19).take 8))) := by rw [hPdef]; rfl
    have h1 : (P.drop 19).take 8 = [k0, k1, k2, k3, k4, k5, k6, k7] := by rw [hPdef]; rfl
    rw [h0, h1, rstrip_pyStrBytearray, if_neg (pyStrBytearray_ne_empty _)]
  have hfcode : (parseMessageType10and20 P).code = code := by
    have h0 : (parseMessageType10and20 P).code
        = thunkByte ((code &&& 0xf) <<< 4) 0xf0 (-4) := by rw [hPdef]; rfl
    rw [h0, thunkByte_m4, and_f0_shr, and_f, Nat.mod_eq_of_lt hcode, Nat.shiftLeft_eq]
    have h16 : (2 : ℕ) ^ 4 = 16 := rfl
    rw [h16]
    omega
  refine ⟨preparedMessage P, postState 10, parseMessageType10and20 P, henc, ?_, hfstatus,
    hfrtype, hfaddr, hflat, hflon, hfalt_lb, hfalt_ub, hfmisc, hfnic, hfnacp, hfth_lb,
    hfth_ub, hfec, ?_, hfcode⟩
  · refine Eq.trans (addBytes_frame P h3 h7d h7e) ?_
    rw [hPdef]
    rfl
  · rw [hk]
    exact hfcs


/-- Witness for C1 (amended) at the ownship-encoder test vector tuple. -/
theorem c1_ownship_roundtrip_witness :
    ∃ f st r,
      msgOwnshipReport 0 1 0xBEEF01 (3339 / 100) (-10453 / 100) 348 0b1011 8 8
          (some 225) (some 0) 128 1 "N123ME" 0 = .ok f ∧
      addBytes initialState f = .ok (st, [Msg.ownshipReport r]) ∧
      r.status = 0 ∧
      r.rtype = 1 ∧
      r.address = 0xBEEF01 ∧
      |r.latitude - 3339 / 100| < 180 / 2 ^ 23 ∧
      |r.longitude - (-10453 / 100)| < 180 / 2 ^ 23 ∧
      (348 : ℤ) - 25 < r.altitude ∧ r.altitude ≤ 348 ∧
      r.misc = 0b1011 ∧
      r.navIntegrityCat = 8 ∧
      r.navAccuracyCat = 8 ∧
      (128 : ℚ) - 360 / 256 < r.trackHeading ∧ r.trackHeading ≤ 128 ∧
      r.emitterCat = 1 ∧
      r.callSign = pyStrBytearray ((("N123ME" ++ "        ").data.take 8).map Char.toNat) ∧
      r.code = 0 :=
  c1_ownship_roundtrip 0 1 0xBEEF01 0b1011 8 8 1 0 (3339 / 100) (-10453 / 100) 128 348
    (some 225) (some 0) "N123ME" (by norm_num) (by norm_num) (by norm_num) (by norm_num)
    (by norm_num) (by norm_num) (by norm_num) (by norm_num) (by norm_num) (by norm_num)
    (by norm_num) (by norm_num) (by norm_num) (by norm_num) (by norm_num) (by norm_num)
    (by decide)


/-- C1 counterexample: for the ownship-encoder test vector tuple (altitude
348 ft, call sign N123ME), the encode/decode round trip yields a report
whose altitude is 325 ft — outside the claimed 12.5-ft tolerance — and whose
call sign is not the original text, refuting the claimed round-trip bounds. -/
theorem c1_counterexample :
    ∃ f st r,
      msgOwnshipReport 0 1 0xBEEF01 (3339 / 100) (-10453 / 100) 348 0b1011 8 8
          (some 225) (some 0) 128 1 "N123ME" 0 = .ok f ∧
      addBytes initialState f = .ok (st, [Msg.ownshipReport r]) ∧
      ¬ (|(r.altitude : ℚ) - 348| ≤ 25 / 2 ∧ r.callSign = "N123ME") := by
  have h1 : makeLatitude (3339 / 100) = 1556086 := by
    rw [makeLatitude_eq _ (by norm_num) (by norm_num)]
    have hp : pyInt ((3339 / 100 : ℚ) * (0x800000 / 180 : ℚ)) = 1556086 := by
      rw [pyInt_eq_floor (by norm_num), Int.floor_eq_iff]
      constructor <;> norm_num
    rw [hp, twos24]
    decide
  have h2 : makeLongitude (-10453 / 100) = 11905765 := by
    rw [makeLongitude_eq _ (by norm_num) (by norm_num)]
    have hfl : ⌊-((-10453 / 100 : ℚ) * (0x800000 / 180 : ℚ))⌋ = 4871451 := by
      rw [Int.floor_eq_iff]
      constructor <;> norm_num
    have hp : pyInt ((-10453 / 100 : ℚ) * (0x800000 / 180 : ℚ)) = -4871451 := by
      rw [pyInt_eq_neg_floor_neg (by norm_num), hfl]
    rw [hp, twos24]
    decide
  have hA : encAltitude 348 = 53 := by
    have hp : pyInt ((((348 : ℤ) : ℚ) + 1000) / 25) = 53 := by
      rw [pyInt_eq_floor (by norm_num), Int.floor_eq_iff]
      constructor <;> norm_num
    simp only [encAltitude]
    rw [hp]
    decide
  have hH : encHVelocity (some 225) = 225 := rfl
  have hV : encVVelocity (some 0) = 0 := by
    have hp : pyInt (((0 : ℤ) : ℚ) / 64) = 0 := by
      rw [pyInt_eq_floor (by norm_num)]
      norm_num
    simp only [encVVelocity]
    rw [if_neg (by norm_num), if_neg (by norm_num), hp]
    decide
  have hT : encTrackHeading 128 = 91 := by
    have hp : pyInt ((128 : ℚ) / (360 / 256 : ℚ)) = 91 := by
      rw [pyInt_eq_floor (by norm_num), Int.floor_eq_iff]
      constructor <;> norm_num
    rw [encTrackHeading, hp]
    decide
  have henc := msgType10and20_ok 10 0 1 0xBEEF01 (3339 / 100) (-10453 / 100) 348 0b1011 8 8
    (some 225) (some 0) 128 1 "N123ME" 0 0x4E 0x31 0x32 0x33 0x4D 0x45 0x20 0x20
    (by norm_num) (by rw [h1]; norm_num) (by rw [h2]; norm_num) (by decide) (by decide)
  rw [h1, h2, hA, hH, hV, hT] at henc
  have hfr : msgOwnshipReport 0 1 0xBEEF01 (3339 / 100) (-10453 / 100) 348 0b1011 8 8
      (some 225) (some 0) 128 1 "N123ME" 0 = .ok (preparedMessage c3Payload) := by
    rw [msgOwnshipReport, henc]
    rfl
  refine ⟨preparedMessage c3Payload, postState 10, parseMessageType10and20 c3Payload, hfr,
    ?_, ?_⟩
  · refine Eq.trans (addBytes_frame c3Payload (by decide) (by decide) (by decide)) ?_
    rfl
  · rintro ⟨haltb, -⟩
    have halt325 : (parseMessageType10and20 c3Payload).altitude = 325 := by decide
    rw [halt325] at haltb
    norm_num at haltb


/-! ## UAT message decoding (`gdl90/messagesuat.py`) -/

/-- An I-Frame as `messagesuat._extractIFrames` produces it
(`namedtuple('IFrame', 'Type Data')`). -/
structure IFrame where
  type : Nat
  data : List Nat
  deriving DecidableEq

/-- `messagesuat._extractIFrames` loop body.  List indexing `dataBytes[n]`
models Python indexing: an out-of-range access is an `IndexError`, modelled
as `none`.  The slice `dataBytes[n:n+framelen]` clamps and never raises.
The `fuel` argument drives the structural recursion; each iteration advances
`n` by at least 2, so 424 units of fuel are never exhausted from the
`extractIFrames` entry point. -/
def extractIFramesGo (fuel : Nat) (dataBytes : List Nat) (n : Nat) (acc : List IFrame) :
    Option (List IFrame) :=
  if n < 424 then
    if 452 ≤ n then some acc
    else
      match dataBytes.get? n, dataBytes.get? (n + 1) with
      | some b0, some b1 =>
        if b0 = 0 ∧ b1 = 0 then some acc
        else
          let framelen := (b0 <<< 1) + thunkByte b1 0x7f (-7)
          let frameType := thunkByte b1 0x0f 0
          match fuel with
          | 0 => none
          | fuel + 1 =>
            extractIFramesGo fuel dataBytes (n + 2 + framelen)
              (acc ++ [{ type := frameType, data := (dataBytes.drop (n + 2)).take framelen }])
      | _, _ => none
  else some acc

/-- `messagesuat._extractIFrames`. -/
def extractIFrames (dataBytes : List Nat) : Option (List IFrame) :=
  extractIFramesGo 424 dataBytes 0 []

/-- Modelled from the spec: the I-Frame header length rule as the
specification (and the code comment) states it — a 9-bit number, the first
header byte shifted left one, plus the top bit of the second header byte.
Stated for comparison with the code of `_extractIFrames`. -/
def specIFrameLen (b0 b1 : Nat) : Nat :=
  (b0 <<< 1) + ((b1 &&& 0x80) >>> 7)

/-- The masked-then-shifted second header byte of `_extractIFrames` is
identically zero: the mask 0x7f keeps only bits 0-6, which a right shift by
7 then discards. -/
theorem thunkByte_7f_m7 (b : Nat) : thunkByte b 0x7f (-7) = 0 := by
  have h : thunkByte b 0x7f (-7) = (b &&& 0x7f) >>> 7 := rfl
  rw [h, show (0x7f : Nat) = 2 ^ 7 - 1 by norm_num, Nat.and_pow_two_sub_one_eq_mod,
    Nat.shiftRight_eq_div_pow]
  omega

/-- On a 424-byte block the I-Frame scan position stays even (every frame
length the code computes is even), so the second header byte always exists
and the extraction never hits an `IndexError`. -/
theorem extractIFramesGo_some (dataBytes : List Nat) (hlen : dataBytes.length = 424) :
    ∀ fuel n acc, n % 2 = 0 → 424 ≤ n + 2 * fuel →
      ∃ l, extractIFramesGo fuel dataBytes n acc = some l := by
  intro fuel
  induction fuel with
  | zero =>
    intro n acc hev hge
    rw [extractIFramesGo.eq_def, if_neg (by omega)]
    exact ⟨acc, rfl⟩
  | succ fuel ih =>
    intro n acc hev hge
    rw [extractIFramesGo.eq_def]
    by_cases hn : n < 424
    · rw [if_pos hn, if_neg (by omega)]
      have hn0 : n < dataBytes.length := by omega
      have hn1 : n + 1 < dataBytes.length := by omega
      obtain ⟨b0, hb0⟩ : ∃ b, dataBytes.get? n = some b := ⟨_, List.get?_eq_get hn0⟩
      obtain ⟨b1, hb1⟩ : ∃ b, dataBytes.get? (n + 1) = some b := ⟨_, List.get?_eq_get hn1⟩
      rw [hb0, hb1]
      dsimp only
      by_cases hz : b0 = 0 ∧ b1 = 0
      · rw [if_pos hz]
        exact ⟨acc, rfl⟩
      · rw [if_neg hz]
        apply ih
        · rw [thunkByte_7f_m7, Nat.shiftLeft_eq]
          have h2 : (2 : ℕ) ^ 1 = 2 := rfl
          rw [h2]
          omega
        · rw [thunkByte_7f_m7, Nat.shiftLeft_eq]
          have h2 : (2 : ℕ) ^ 1 = 2 := rfl
          rw [h2]
          omega
    · rw [if_neg hn]
      exact ⟨acc, rfl⟩

/-- C7: on a 424-byte UAT data block the I-Frame extractor scans from offset
0 and terminates without ever indexing past the end of the block (the scan
position stays even, so both header bytes always exist), but the frame
length it reads is not the 9-bit value the claim states:
`_thunkByte(dataBytes[n+1], mask=0x7f, shift=-7)` is identically zero, so
the top bit of the second header byte never reaches the length.  On the
block starting 0x00 0x80 followed by zeros, the stated header rule gives
frame length 1 while the code produces an I-Frame with empty data. -/
theorem c7_iframe_extraction :
    (∀ dataBytes : List Nat, dataBytes.length = 424 →
      ∃ l, extractIFrames dataBytes = some l) ∧
    (∀ b : Nat, thunkByte b 0x7f (-7) = 0) ∧
    specIFrameLen 0x00 0x80 = 1 ∧
    extractIFrames (0x00 :: 0x80 :: List.replicate 422 0)
      = some [{ type := 0, data := [] }] := by
  refine ⟨?_, thunkByte_7f_m7, by decide, by decide⟩
  intro dataBytes hlen
  exact extractIFramesGo_some dataBytes hlen 424 0 [] (by decide) (by decide)

/-- `messagesuat.DLAC2StrTable`: the 64-symbol DLAC alphabet (multi-character
entries for Tab and CR+LF exactly as the source defines them). -/
def DLAC2StrTable : List String :=
  [String.mk [Char.ofNat 3],
   "A",
   "B",
   "C",
   "D",
   "E",
   "F",
   "G",
   "H",
   "I",
   "J",
   "K",
   "L",
   "M",
   "N",
   "O",
   "P",
   "Q",
   "R",
   "S",
   "T",
   "U",
   "V",
   "W",
   "X",
   "Y",
   "Z",
   String.mk [Char.ofNat 0],
   "....",
   String.mk [Char.ofNat 30],
   String.mk [Char.ofNat 13, Char.ofNat 10],
   String.mk [Char.ofNat 0],
   " ",
   "!",
   "\"",
   "#",
   "$",
   "%",
   "&",
   String.mk [Char.ofNat 39],
   "(",
   ")",
   "*",
   "+",
   ",",
   "-",
   ".",
   "/",
   "0",
   "1",
   "2",
   "3",
   "4",
   "5",
   "6",
   "7",
   "8",
   "9",
   ":",
   ";",
   "<",
   "=",
   ">",
   "?"]

/-- `messagesuat.dlac2string` loop.  The loop indices are `n` (input) and
`m` (output, whose residue mod 4 is the `pos` cursor of the source); the
`assert 0 <= d <= 63` of the source never fires for byte inputs and is
omitted as in the other `_thunkByte` call sites.  The `fuel` argument drives
the structural recursion; `m` grows every pass and `n` grows on three of
every four passes, so `2 * length + 4` units are never exhausted. -/
def dlacGo : Nat → List Nat → Nat → Nat → List String → List String
  | 0, _, _, _, acc => acc
  | fuel + 1, msgIn, n, m, acc =>
    if n < msgIn.length then
      if m % 4 = 0 then
        dlacGo fuel msgIn n (m + 1)
          (acc ++ [DLAC2StrTable.getD (thunkByte (msgIn.getD n 0) 0xfc (-2)) ""])
      else if m % 4 = 1 then
        if ¬ (n + 1 < msgIn.length) then acc
        else
          dlacGo fuel msgIn (n + 1) (m + 1)
            (acc ++ [DLAC2StrTable.getD
              (thunkByte (msgIn.getD n 0) 0x03 4 + thunkByte (msgIn.getD (n + 1) 0) 0xf0 (-4)) ""])
      else if m % 4 = 2 then
        if ¬ (n + 1 < msgIn.length) then acc
        else
          dlacGo fuel msgIn (n + 1) (m + 1)
            (acc ++ [DLAC2StrTable.getD
              (thunkByte (msgIn.getD n 0) 0x0f 2 + thunkByte (msgIn.getD (n + 1) 0) 0xc0 (-6)) ""])
      else
        dlacGo fuel msgIn (n + 1) (m + 1)
          (acc ++ [DLAC2StrTable.getD (thunkByte (msgIn.getD n 0) 0x3f 0) ""])
    else acc

/-- `messagesuat.dlac2string`.  The Python-2-era `b"".join(msgOutChars)`
(which on Python 3 raises `TypeError` for a nonempty result) is modelled as
the concatenation of the decoded symbol strings. -/
def dlac2string (msgIn : List Nat) : String :=
  String.join (dlacGo (2 * msgIn.length + 4) msgIn 0 0 [])

theorem dlacGo_end (fuel : Nat) (msgIn : List Nat) (n m : Nat) (acc : List String)
    (hn : ¬ n < msgIn.length) : dlacGo fuel msgIn n m acc = acc := by
  cases fuel with
  | zero => rfl
  | succ f =>
    rw [dlacGo.eq_def]
    dsimp only
    rw [if_neg hn]

theorem dlacGo_pos0 (fuel : Nat) (msgIn : List Nat) (n m : Nat) (acc : List String)
    (hn : n < msgIn.length) (hm : m % 4 = 0) :
    dlacGo (fuel + 1) msgIn n m acc
      = dlacGo fuel msgIn n (m + 1)
          (acc ++ [DLAC2StrTable.getD (thunkByte (msgIn.getD n 0) 0xfc (-2)) ""]) := by
  rw [dlacGo.eq_def]
  dsimp only
  rw [if_pos hn, if_pos hm]

theorem dlacGo_pos1 (fuel : Nat) (msgIn : List Nat) (n m : Nat) (acc : List String)
    (hn : n < msgIn.length) (hm : m % 4 = 1) (hn1 : n + 1 < msgIn.length) :
    dlacGo (fuel + 1) msgIn n m acc
      = dlacGo fuel msgIn (n + 1) (m + 1)
          (acc ++ [DLAC2StrTable.getD
            (thunkByte (msgIn.getD n 0) 0x03 4 + thunkByte (msgIn.getD (n + 1) 0) 0xf0 (-4)) ""]) := by
  rw [dlacGo.eq_def]
  dsimp only
  rw [if_pos hn, if_neg (by omega), if_pos hm, if_neg (not_not_intro hn1)]

theorem dlacGo_pos2 (fuel : Nat) (msgIn : List Nat) (n m : Nat) (acc : List String)
    (hn : n < msgIn.length) (hm : m % 4 = 2) (hn1 : n + 1 < msgIn.length) :
    dlacGo (fuel + 1) msgIn n m acc
      = dlacGo fuel msgIn (n + 1) (m + 1)
          (acc ++ [DLAC2StrTable.getD
            (thunkByte (msgIn.getD n 0) 0x0f 2 + thunkByte (msgIn.getD (n + 1) 0) 0xc0 (-6)) ""]) := by
  rw [dlacGo.eq_def]
  dsimp only
  rw [if_pos hn, if_neg (by omega), if_neg (by omega), if_pos hm, if_neg (not_not_intro hn1)]

theorem dlacGo_pos3 (fuel : Nat) (msgIn : List Nat) (n m : Nat) (acc : List String)
    (hn : n < msgIn.length) (hm : m % 4 = 3) :
    dlacGo (fuel + 1) msgIn n m acc
      = dlacGo fuel msgIn (n + 1) (m + 1)
          (acc ++ [DLAC2StrTable.getD (thunkByte (msgIn.getD n 0) 0x3f 0) ""]) := by
  rw [dlacGo.eq_def]
  dsimp only
  rw [if_pos hn, if_neg (by omega), if_neg (by omega), if_neg (by omega)]

/-- Modelled from the spec: the DLAC unpacking rule as the specification
describes it — four 6-bit characters per three input bytes, the rotating
cursor position selecting the byte offset, mask and shift of each character
code, every code (the end-of-text symbol included) contributing its table
entry.  `j` is the three-byte group index, `d` the number of remaining
groups. -/
def specDlacChunks (msgIn : List Nat) (j d : Nat) : List String :=
  match d with
  | 0 => []
  | d + 1 =>
    [DLAC2StrTable.getD (thunkByte (msgIn.getD (3 * j) 0) 0xfc (-2)) "",
     DLAC2StrTable.getD
       (thunkByte (msgIn.getD (3 * j) 0) 0x03 4
         + thunkByte (msgIn.getD (3 * j + 1) 0) 0xf0 (-4)) "",
     DLAC2StrTable.getD
       (thunkByte (msgIn.getD (3 * j + 1) 0) 0x0f 2
         + thunkByte (msgIn.getD (3 * j + 2) 0) 0xc0 (-6)) "",
     DLAC2StrTable.getD (thunkByte (msgIn.getD (3 * j + 2) 0) 0x3f 0) ""]
      ++ specDlacChunks msgIn (j + 1) d

theorem specDlacChunks_succ (msgIn : List Nat) (j d : Nat) :
    specDlacChunks msgIn j (d + 1)
      = [DLAC2StrTable.getD (thunkByte (msgIn.getD (3 * j) 0) 0xfc (-2)) "",
         DLAC2StrTable.getD
           (thunkByte (msgIn.getD (3 * j) 0) 0x03 4
             + thunkByte (msgIn.getD (3 * j + 1) 0) 0xf0 (-4)) "",
         DLAC2StrTable.getD
           (thunkByte (msgIn.getD (3 * j + 1) 0) 0x0f 2
             + thunkByte (msgIn.getD (3 * j + 2) 0) 0xc0 (-6)) "",
         DLAC2StrTable.getD (thunkByte (msgIn.getD (3 * j + 2) 0) 0x3f 0) ""]
          ++ specDlacChunks msgIn (j + 1) d := rfl

/-- Modelled from the spec: the leftover-byte rule of the amended claim —
with one byte left past the complete three-byte groups the decoder emits one
more character (the cursor-position-0 code of that byte) and stops one byte
early at cursor position 1; with two bytes left it emits the position-0 and
position-1 codes and stops one byte early at cursor position 2. -/
def specDlacTail (msgIn : List Nat) : List String :=
  if msgIn.length % 3 = 1 then
    [DLAC2StrTable.getD (thunkByte (msgIn.getD (3 * (msgIn.length / 3)) 0) 0xfc (-2)) ""]
  else if msgIn.length % 3 = 2 then
    [DLAC2StrTable.getD (thunkByte (msgIn.getD (3 * (msgIn.length / 3)) 0) 0xfc (-2)) "",
     DLAC2StrTable.getD
       (thunkByte (msgIn.getD (3 * (msgIn.length / 3)) 0) 0x03 4
         + thunkByte (msgIn.getD (3 * (msgIn.length / 3) + 1) 0) 0xf0 (-4)) ""]
  else []

theorem dlacGo_pos1_stop (fuel : Nat) (msgIn : List Nat) (n m : Nat) (acc : List String)
    (hn : n < msgIn.length) (hm : m % 4 = 1) (hn1 : ¬ n + 1 < msgIn.length) :
    dlacGo (fuel + 1) msgIn n m acc = acc := by
  rw [dlacGo.eq_def]
  dsimp only
  rw [if_pos hn, if_neg (by omega), if_pos hm, if_pos hn1]

theorem dlacGo_pos2_stop (fuel : Nat) (msgIn : List Nat) (n m : Nat) (acc : List String)
    (hn : n < msgIn.length) (hm : m % 4 = 2) (hn1 : ¬ n + 1 < msgIn.length) :
    dlacGo (fuel + 1) msgIn n m acc = acc := by
  rw [dlacGo.eq_def]
  dsimp only
  rw [if_pos hn, if_neg (by omega), if_neg (by omega), if_pos hm, if_pos hn1]

/-- The DLAC loop emits exactly the specification's four characters per
complete three-byte group, never stopping early inside the groups, and then
continues from the end of the groups with whatever fuel is left. -/
theorem dlacGo_complete (msgIn : List Nat) (k : Nat) (hlen : 3 * k ≤ msgIn.length) :
    ∀ d j fuel acc, j + d = k → 4 * d ≤ fuel →
      dlacGo fuel msgIn (3 * j) (4 * j) acc
        = dlacGo (fuel - 4 * d) msgIn (3 * k) (4 * k) (acc ++ specDlacChunks msgIn j d) := by
  intro d
  induction d with
  | zero =>
    intro j fuel acc hjk hf
    rw [show specDlacChunks msgIn j 0 = [] from rfl, List.append_nil]
    have hjk0 : j = k := by omega
    rw [hjk0, Nat.mul_zero, Nat.sub_zero]
  | succ d ih =>
    intro j fuel acc hjk hf
    have h0 : 3 * j < msgIn.length := by omega
    have h1 : 3 * j + 1 < msgIn.length := by omega
    have h2 : 3 * j + 2 < msgIn.length := by omega
    obtain ⟨f, rfl⟩ : ∃ f, fuel = f + 4 := ⟨fuel - 4, by omega⟩
    rw [show f + 4 = f + 3 + 1 from rfl, dlacGo_pos0 _ _ _ _ _ h0 (by omega)]
    rw [show f + 3 = f + 2 + 1 from rfl, dlacGo_pos1 _ _ _ _ _ h0 (by omega) h1]
    rw [show f + 2 = f + 1 + 1 from rfl, dlacGo_pos2 _ _ _ _ _ h1 (by omega) h2]
    rw [show 3 * j + 1 + 1 = 3 * j + 2 by ring]
    rw [dlacGo_pos3 _ _ _ _ _ h2 (by omega)]
    rw [show 3 * j + 2 + 1 = 3 * (j + 1) by ring,
      show 4 * j + 1 + 1 + 1 + 1 = 4 * (j + 1) by ring]
    rw [ih (j + 1) f _ (by omega) (by omega)]
    rw [show f - 4 * d = f + 4 - 4 * (d + 1) by omega]
    rw [specDlacChunks_succ]
    simp only [List.append_assoc, List.cons_append, List.nil_append, List.singleton_append]

/-- C8 (amended): for every input byte sequence, DLAC text decoding unpacks
four characters per three input bytes with the rotating-cursor rule and
stops only at the end of the input — at cursor positions 1 and 2 it stops
one byte early when a single byte remains — while the end-of-text symbol
does not terminate decoding: its table entry is appended like any other and
the loop continues. -/
theorem c8_dlac_decode (msgIn : List Nat) :
    dlac2string msgIn
      = String.join (specDlacChunks msgIn 0 (msgIn.length / 3) ++ specDlacTail msgIn) := by
  rw [dlac2string]
  have hk3 : 3 * (msgIn.length / 3) ≤ msgIn.length := Nat.mul_div_le msgIn.length 3
  have h := dlacGo_complete msgIn (msgIn.length / 3) hk3 (msgIn.length / 3) 0
    (2 * msgIn.length + 4) [] (by omega) (by omega)
  simp only [Nat.mul_zero, List.nil_append] at h
  rw [h]
  have hr : msgIn.length % 3 = 0 ∨ msgIn.length % 3 = 1 ∨ msgIn.length % 3 = 2 := by omega
  rcases hr with hr | hr | hr
  · rw [dlacGo_end _ _ _ _ _ (by omega)]
    rw [specDlacTail, if_neg (by omega), if_neg (by omega), List.append_nil]
  · obtain ⟨f, hF⟩ : ∃ f, 2 * msgIn.length + 4 - 4 * (msgIn.length / 3) = f + 1 + 1 :=
      ⟨2 * msgIn.length + 4 - 4 * (msgIn.length / 3) - 2, by omega⟩
    rw [hF, dlacGo_pos0 _ _ _ _ _ (by omega) (by omega),
      dlacGo_pos1_stop _ _ _ _ _ (by omega) (by omega) (by omega)]
    rw [specDlacTail, if_pos hr]
  · obtain ⟨f, hF⟩ : ∃ f, 2 * msgIn.length + 4 - 4 * (msgIn.length / 3) = f + 1 + 1 + 1 :=
      ⟨2 * msgIn.length + 4 - 4 * (msgIn.length / 3) - 3, by omega⟩
    rw [hF, dlacGo_pos0 _ _ _ _ _ (by omega) (by omega),
      dlacGo_pos1 _ _ _ _ _ (by omega) (by omega) (by omega),
      dlacGo_pos2_stop _ _ _ _ _ (by omega) (by omega) (by omega)]
    rw [specDlacTail, if_neg (by omega), if_pos hr]
    simp only [List.append_assoc, List.cons_append, List.nil_append, List.singleton_append]

/-- C8 counterexample: on the input 0x00 0x10 0x00 the very first decoded
6-bit code is 0 (the end-of-text symbol), yet decoding does not stop there:
the output consists of four symbols (ETX, A, ETX, ETX), refuting the claim
that no characters are emitted after the end-of-text symbol. -/
theorem c8_counterexample :
    thunkByte (([0x00, 0x10, 0x00] : List Nat).getD 0 0) 0xfc (-2) = 0 ∧
    dlac2string [0x00, 0x10, 0x00]
      = String.mk [Char.ofNat 3, Char.ofNat 65, Char.ofNat 3, Char.ofNat 3] ∧
    ¬ dlac2string [0x00, 0x10, 0x00] = String.mk [Char.ofNat 3] := by
  refine ⟨by decide, by decide, by decide⟩

end GDL90
